import Mathlib

/-!
Verification development for the `Page` entity of the earwigbot wiki toolset
(`earwigbot/wiki/page.py`).  The Python class is shallowly embedded as a state
machine: the mutable attributes of a `Page` instance become the fields of
`PageSt`, the remote site (`site.api_query`, `site._login`, `site._login_info`,
namespace lookup) becomes an oracle `Site` of indexed responses, and every
method becomes an explicit state-passing function `Tr → Except Err α × Tr`
that also records the remote calls it makes (and the number of automatic
redirect hops it takes) in the `Tr` value it threads.
-/

namespace Earwig

/-- Mutable attributes of a `Page` instance (`Page.__init__`).  `exists_`
uses the source encoding: 0 unknown, 1 invalid, 2 missing, 3 exists. -/
structure PageSt where
  title : String
  follow_redirects : Bool
  keep_following : Bool
  exists_ : Nat
  pageid : Option Int
  is_redirect : Option Bool
  lastrevid : Option Int
  protection : Option String
  fullurl : Option String
  content : Option String
  creator : Option String
  token : Option String
  basetimestamp : Option String
  starttimestamp : Option String
  ns : Int
  is_talkpage : Bool
deriving Repr, DecidableEq

/-- The fields of one API query result that `_load_attributes` and
`_load_content` read: `res["title"]`, presence of `res["redirect"]`, the page
id (`result["query"]["pages"].keys()[0]`), presence of `"missing"`,
`res["fullurl"]`, `res["protection"]`, optional `res["edittoken"]`,
`res["ns"]`, `res.get("lastrevid")`, the optional first revision user, and the
optional first revision content and timestamp. -/
structure ApiResult where
  title : String
  redirect : Bool
  pageid : Int
  missing : Bool
  fullurl : String
  protection : String
  edittoken : Option String
  ns : Int
  lastrevid : Option Int
  creatorUser : Option String
  revContent : Option (String × String)
deriving Repr, DecidableEq

/-- Parameter dictionary built by `_build_edit_params`.  The md5 checksum is
represented by the text it hashes (no claim depends on the digest value);
a `some`/`true` field means the corresponding key is present in the dict.
`startP` is doubly optional because the source stores `self._starttimestamp`
(possibly `None`) under the key whenever `force` is off. -/
structure EditParams where
  title : String
  text : Option String
  token : Option String
  summary : Option String
  md5input : Option String
  sect : Option String
  captchaid : Option String
  captchaword : Option String
  minorFlag : Bool
  notminor : Bool
  botFlag : Bool
  startP : Option (Option String)
  baseP : Option String
  createonly : Bool
  recreate : Bool
deriving Repr, DecidableEq

/-- Response of the remote to one edit submission: either a raised
`SiteAPIError` (with or without a `code` attribute) or a result dict with
`result["edit"]["result"]` and the optional `result["edit"]["assert"]`. -/
inductive EditResp where
  | apiError (code : Option String) (info : String)
  | result (res : String) (assertVal : Option String)
deriving Repr, DecidableEq

/-- One remote interaction, as recorded in the trace: a metadata query from
`_load_attributes`, a content query from `_load_content`, the combined
metadata+content query from `get`, an edit submission carrying its parameter
dict, or a `site._login` call. -/
inductive RCall where
  | metaQ
  | contentQ
  | combinedQ
  | editQ (ps : EditParams)
  | loginC
deriving Repr, DecidableEq

def RCall.isQuery : RCall → Bool
  | metaQ | contentQ | combinedQ => true
  | _ => false

def RCall.isEdit : RCall → Bool
  | editQ _ => true
  | _ => false

def RCall.isContentFetch : RCall → Bool
  | contentQ | combinedQ => true
  | _ => false

def RCall.isLogin : RCall → Bool
  | loginC => true
  | _ => false

/-- The external site capability: the k-th non-edit API query returns
`query k`, the k-th edit submission returns `editQuery k`,
`loginInfoAll` models `all(self._site._login_info)`, `nowStr` the
`strftime(...)` clock value, and `nsNameToId` the namespace converter
(`none` models a raised `NamespaceNotFoundError`). -/
structure Site where
  query : Nat → ApiResult
  editQuery : Nat → EditResp
  loginInfoAll : Bool
  nowStr : String
  nsNameToId : String → Option Int

/-- Execution trace: current page state, the list of remote calls made so
far, and the number of automatic redirect hops taken so far. -/
structure Tr where
  page : PageSt
  log : List RCall
  hops : Nat
deriving Repr, DecidableEq

/-- Exceptions raised by the embedded methods. -/
inductive Err where
  | invalidPage (msg : String)
  | pageNotFound (msg : String)
  | redirectErr (msg : String)
  | permissions (msg : String)
  | login (msg : String)
  | editConflict (msg : String)
  | noContent (msg : String)
  | contentTooBig (msg : String)
  | spamDetected (msg : String)
  | filtered (msg : String)
  | editErr (msg : String)
  | siteAPI (info : String)
  | pyTypeError (msg : String)
  | fuelOut
deriving Repr, DecidableEq

/-- A stateful, fallible computation.  On an exception the state reached so
far is kept, as Python attribute mutations survive a raise. -/
def M (α : Type) : Type := Tr → Except Err α × Tr

def mok {α : Type} (a : α) : M α := fun tr => (Except.ok a, tr)

def mthrow {α : Type} (e : Err) : M α := fun tr => (Except.error e, tr)

def mbind {α β : Type} (x : M α) (f : α → M β) : M β := fun tr =>
  match x tr with
  | (Except.ok a, tr') => f a tr'
  | (Except.error e, tr') => (Except.error e, tr')

/-- Read the whole trace (used to consult the current page state). -/
def mgetTr : M Tr := fun tr => (Except.ok tr, tr)

def setPage (f : PageSt → PageSt) : M Unit :=
  fun tr => (Except.ok (), { tr with page := f tr.page })

def addCall (c : RCall) (tr : Tr) : Tr := { tr with log := tr.log ++ [c] }

def addHop : M Unit := fun tr => (Except.ok (), { tr with hops := tr.hops + 1 })

/-- Number of non-edit API queries in a log (the index into `Site.query`). -/
def queryIdx (log : List RCall) : Nat := log.countP RCall.isQuery

/-- Number of edit submissions in a log (the index into `Site.editQuery`). -/
def editCount (log : List RCall) : Nat := log.countP RCall.isEdit

def loginCount (log : List RCall) : Nat := log.countP RCall.isLogin

def contentFetchCount (log : List RCall) : Nat := log.countP RCall.isContentFetch

/-- Python truthiness of an optional string (`None` and `""` are falsy). -/
def truthy : Option String → Bool
  | none => false
  | some s => s != ""

/-- The tail of `_load_attributes` (lines 225-245), reached unless the invalid
early return fires: store url, protection, the edit token and its
`starttimestamp` when present, the authoritative namespace, talkpage parity,
`lastrevid` (overwritten even when absent, via `res.get`), and the creator
(kept unchanged when absent, via the caught `KeyError`). -/
def applyRest (p : PageSt) (res : ApiResult) (now : String) : PageSt :=
  let p := { p with fullurl := some res.fullurl, protection := some res.protection }
  let p :=
    match res.edittoken with
    | none => p
    | some tk => { p with token := some tk, starttimestamp := some now }
  { p with ns := res.ns, is_talkpage := res.ns % 2 == 1,
           lastrevid := res.lastrevid,
           creator :=
             match res.creatorUser with
             | none => p.creator
             | some u => some u }

/-- State update of `_load_attributes` on result `res`: normalize the title,
set the redirect flag and page id, then classify existence (negative id with
the missing marker → 2, negative id without it → 1 with an early return,
non-negative id → 3). -/
def applyAttributes (p : PageSt) (res : ApiResult) (now : String) : PageSt :=
  let p1 := { p with title := res.title, is_redirect := some res.redirect,
                     pageid := some res.pageid }
  if res.pageid < 0 then
    if res.missing then applyRest { p1 with exists_ := 2 } res now
    else { p1 with exists_ := 1 }
  else applyRest { p1 with exists_ := 3 } res now

/-- `_load_attributes(result=given)`: query the site unless a result is
provided, then apply the attribute update. -/
def load_attributes (site : Site) (given : Option ApiResult) : M Unit := fun tr =>
  match given with
  | some res =>
      (Except.ok (), { tr with page := applyAttributes tr.page res site.nowStr })
  | none =>
      let res := site.query (queryIdx tr.log)
      let tr := addCall RCall.metaQ tr
      (Except.ok (), { tr with page := applyAttributes tr.page res site.nowStr })

/-- `_assert_validity`: raise `InvalidPageError` when the cached state is 1. -/
def assert_validity : M Unit := fun tr =>
  if tr.page.exists_ = 1 then
    (Except.error (Err.invalidPage "Page is invalid."), tr)
  else (Except.ok (), tr)

/-- `_assert_existence`: `_assert_validity`, then raise `PageNotFoundError`
when the cached state is 2. -/
def assert_existence : M Unit :=
  mbind assert_validity fun _ => fun tr =>
    if tr.page.exists_ = 2 then
      (Except.error (Err.pageNotFound "Page does not exist."), tr)
    else (Except.ok (), tr)

/-- `_load_content(result=given)`: query unless a result is provided; store
content and base timestamp from the first revision, or, when the page was
deleted in between (no revisions), re-fetch attributes and re-assert
existence. -/
def load_content (site : Site) (given : Option ApiResult) : M Unit := fun tr =>
  let pair :=
    match given with
    | some res => (res, tr)
    | none =>
        let res := site.query (queryIdx tr.log)
        (res, addCall RCall.contentQ tr)
  let res := pair.1
  let tr := pair.2
  match res.revContent with
  | some ct =>
      (Except.ok (),
        { tr with page := { tr.page with content := some ct.1, basetimestamp := some ct.2 } })
  | none =>
      (mbind (load_attributes site none) fun _ => assert_existence) tr

/-- Python `\s` on ASCII input. -/
def isSpace (c : Char) : Bool :=
  c == ' ' || c == '\t' || c == '\n' || c == '\r' || c == '\x0b' || c == '\x0c'

def dropSpaces : List Char → List Char
  | [] => []
  | c :: cs => if isSpace c then dropSpaces cs else c :: cs

/-- Match a literal pattern (given lowercase) case-insensitively, returning
the remaining input. -/
def stripCI : List Char → List Char → Option (List Char)
  | [], cs => some cs
  | _ :: _, [] => none
  | p :: ps, c :: cs => if c.toLower == p then stripCI ps cs else none

/-- The lazy group of `(.*?)\]\]` with `.` not matching a newline: capture up
to the first `]]`, failing if a newline intervenes. -/
def captureTarget : List Char → List Char → Option String
  | acc, ']' :: ']' :: _ => some (String.mk acc.reverse)
  | _, '\n' :: _ => none
  | acc, c :: cs => captureTarget (c :: acc) cs
  | _, [] => none

/-- `re.findall("^\s*\#\s*redirect\s*\[\[(.*?)\]\]", text, flags=re.I)[0]`
as consumed by `get_redirect_target`: `none` models an `IndexError` (no
match, caught and turned into `RedirectError`). -/
def findRedirect (text : String) : Option String :=
  match dropSpaces text.toList with
  | '#' :: rest =>
      match stripCI "redirect".toList (dropSpaces rest) with
      | none => none
      | some rest2 =>
          match dropSpaces rest2 with
          | '[' :: '[' :: rest3 => captureTarget [] rest3
          | _ => none
  | _ => none

mutual

/-- `get()` (lines 603-637).  From unknown existence: one combined
metadata+content query, classification, existence assertion, content load
from the same result, then the one automatic redirect hop if enabled, and
return the cached content.  Otherwise: assert existence, load content if it
was never fetched, return it.  The `fuel` argument only drives Lean
termination; the Python recursion is bounded because `_keep_following` is
cleared before the recursive call. -/
def getF (site : Site) : Nat → M (Option String)
  | 0 => mthrow Err.fuelOut
  | fuel + 1 => fun tr =>
    if tr.page.exists_ = 0 then
      let res := site.query (queryIdx tr.log)
      let tr := addCall RCall.combinedQ tr
      (mbind (load_attributes site (some res)) fun _ =>
       mbind assert_existence fun _ =>
       mbind (load_content site (some res)) fun _ =>
       mbind mgetTr fun tr2 =>
       if tr2.page.keep_following && tr2.page.is_redirect == some true then
         mbind (get_redirect_targetF site fuel) fun target =>
         mbind (setPage fun p => { p with title := target }) fun _ =>
         mbind (setPage fun p => { p with keep_following := false }) fun _ =>
         mbind (setPage fun p => { p with exists_ := 0 }) fun _ =>
         mbind addHop fun _ =>
         mbind (getF site fuel) fun _ =>
         mbind mgetTr fun tr3 =>
         mok tr3.page.content
       else
         mok tr2.page.content) tr
    else
      (mbind assert_existence fun _ =>
       mbind mgetTr fun tr2 =>
       if tr2.page.content = none then
         mbind (load_content site none) fun _ =>
         mbind mgetTr fun tr3 =>
         mok tr3.page.content
       else
         mok tr2.page.content) tr

/-- `get_redirect_target()` (lines 639-653): fetch content via `get`, then
extract the redirect target.  A `none` content makes `re.findall` raise a
`TypeError`; a failed match raises `RedirectError`. -/
def get_redirect_targetF (site : Site) : Nat → M String
  | 0 => mthrow Err.fuelOut
  | fuel + 1 =>
    mbind (getF site fuel) fun content =>
    match content with
    | none => mthrow (Err.pyTypeError "expected string or buffer")
    | some c =>
        match findRedirect c with
        | some target => mok target
        | none => mthrow (Err.redirectErr "The page does not appear to have a redirect target.")

end

/-- `_load()` (lines 159-180): load attributes, then follow one redirect hop
when enabled: re-target the title, disable further following, drop the
content fetched along the way, and load attributes again. -/
def loadF (site : Site) (fuel : Nat) : M Unit :=
  mbind (load_attributes site none) fun _ =>
  mbind mgetTr fun tr =>
  if tr.page.keep_following && tr.page.is_redirect == some true then
    mbind (get_redirect_targetF site fuel) fun target =>
    mbind (setPage fun p =>
      { p with title := target, keep_following := false, content := none }) fun _ =>
    mbind addHop fun _ =>
    load_attributes site none
  else
    mok ()

/-- `reload()` (lines 548-557): `_load`, then reload content only when it had
already been loaded (`is not None`). -/
def reloadF (site : Site) (fuel : Nat) : M Unit :=
  mbind (loadF site fuel) fun _ =>
  mbind mgetTr fun tr =>
  if tr.page.content ≠ none then load_content site none
  else mok ()

/-- The `is_redirect` property (lines 536-546): load on unknown existence,
then return the stored flag. -/
def isRedirectProp (site : Site) (fuel : Nat) : M (Option Bool) :=
  mbind mgetTr fun tr =>
  mbind (if tr.page.exists_ = 0 then loadF site fuel else mok ()) fun _ =>
  mbind mgetTr fun tr2 =>
  mok tr2.page.is_redirect

/-- `_build_edit_params` (lines 326-355), with Python truthiness for the
optional string arguments and for `self._basetimestamp`. -/
def build_edit_params (p : PageSt) (text summary : Option String)
    (minor bot force : Bool) (sect captcha_id captcha_word : Option String) :
    EditParams :=
  let ps : EditParams :=
    { title := p.title, text := text, token := p.token, summary := summary,
      md5input := text, sect := none, captchaid := none, captchaword := none,
      minorFlag := false, notminor := false, botFlag := false,
      startP := none, baseP := none, createonly := false, recreate := false }
  let ps := if truthy sect then { ps with sect := sect } else ps
  let ps :=
    if truthy captcha_id && truthy captcha_word then
      { ps with captchaid := captcha_id, captchaword := captcha_word }
    else ps
  let ps := if minor then { ps with minorFlag := true } else { ps with notminor := true }
  let ps := if bot then { ps with botFlag := true } else ps
  if force then { ps with recreate := true }
  else
    let ps := { ps with startP := some p.starttimestamp }
    let ps := if truthy p.basetimestamp then { ps with baseP := p.basetimestamp } else ps
    if p.exists_ = 2 then { ps with createonly := true } else ps

/-- One edit submission `self._site.api_query(**params)`: record the call and
return the site's response for the current submission index. -/
def submitEdit (site : Site) (params : EditParams) : M EditResp := fun tr =>
  (Except.ok (site.editQuery (editCount tr.log)), addCall (RCall.editQ params) tr)

/-- `self._site._login(self._site._login_info)`: recorded, no other effect. -/
def doLogin : M Unit := fun tr => (Except.ok (), addCall RCall.loginC tr)

mutual

/-- `_edit` (lines 273-324).  Token acquisition (with one attribute fetch if
none is cached), validity assertion, parameter construction (or token refresh
on a given parameter dict), submission, error dispatch, cache invalidation on
success, and AssertEdit dispatch.  When `_handle_edit_errors` has handled an
error by a retry, it hands back the retry's `None` return value, which the
caller then subscripts (`result["edit"]["result"]`), raising a `TypeError`;
this source behaviour is reproduced.  `fuel` only drives Lean termination:
the recursion is bounded by the `tries` counter. -/
def editF (site : Site) (fuel : Nat) (paramsO : Option EditParams)
    (text summary : Option String) (minor bot force : Bool)
    (sect captcha_id captcha_word : Option String) (tries : Nat) : M Unit :=
  match fuel with
  | 0 => mthrow Err.fuelOut
  | fuel + 1 =>
    mbind mgetTr fun tr0 =>
    mbind (if truthy tr0.page.token then mok () else load_attributes site none) fun _ =>
    mbind mgetTr fun tr1 =>
    mbind (if truthy tr1.page.token then mok ()
           else mthrow (Err.permissions "You do not have permission to edit this page.")) fun _ =>
    mbind assert_validity fun _ =>
    mbind mgetTr fun tr2 =>
    let params : EditParams :=
      match paramsO with
      | none => build_edit_params tr2.page text summary minor bot force sect
                  captcha_id captcha_word
      | some ps => { ps with token := tr2.page.token }
    mbind (submitEdit site params) fun resp =>
    mbind (match resp with
           | EditResp.result r a => mok (some (r, a))
           | EditResp.apiError none info => mthrow (Err.siteAPI info)
           | EditResp.apiError (some code) info =>
               handle_edit_errorsF site fuel code info params tries) fun result =>
    match result with
    | none => mthrow (Err.pyTypeError "NoneType object is not subscriptable")
    | some ra =>
        if ra.1 = "Success" then
          setPage fun p => { p with content := none, basetimestamp := none, exists_ := 0 }
        else
          match ra.2 with
          | none => mthrow (Err.editErr ra.1)
          | some assertion =>
              mbind (handle_assert_editF site fuel assertion params tries) fun _ => mok ()

/-- `_handle_edit_errors` (lines 357-402): classify the remote rejection code;
on an anonymous-permission code with configured credentials and a first
attempt, log in, invalidate the token and resubmit once, returning the
retry's `None` result. -/
def handle_edit_errorsF (site : Site) (fuel : Nat) (code info : String)
    (params : EditParams) (tries : Nat) : M (Option (String × Option String)) :=
  match fuel with
  | 0 => mthrow Err.fuelOut
  | fuel + 1 =>
    if code ∈ ["noedit", "cantcreate", "protectedtitle", "noimageredirect"] then
      mthrow (Err.permissions info)
    else if code ∈ ["noedit-anon", "cantcreate-anon", "noimageredirect-anon"] then
      if site.loginInfoAll = false then mthrow (Err.permissions info)
      else if tries = 0 then
        mbind doLogin fun _ =>
        mbind (setPage fun p => { p with token := none }) fun _ =>
        mbind (editF site fuel (some params) none none false false false none none none 1)
          fun _ =>
        mok none
      else
        mthrow (Err.login "Although we should be logged in, we are not.")
    else if code ∈ ["editconflict", "pagedeleted", "articleexists"] then
      mbind (setPage fun p => { p with content := none, basetimestamp := none, exists_ := 0 })
        fun _ =>
      mthrow (Err.editConflict info)
    else if code ∈ ["emptypage", "emptynewsection"] then
      mthrow (Err.noContent info)
    else if code = "contenttoobig" then mthrow (Err.contentTooBig info)
    else if code = "spamdetected" then mthrow (Err.spamDetected info)
    else if code = "filtered" then mthrow (Err.filtered info)
    else mthrow (Err.editErr (code ++ ": " ++ info))

/-- `_handle_assert_edit` (lines 404-431): a failed `user` assertion follows
the same one-retry-then-`LoginError` policy; a failed `bot` assertion and any
other assertion raise `PermissionsError`. -/
def handle_assert_editF (site : Site) (fuel : Nat) (assertion : String)
    (params : EditParams) (tries : Nat) : M (Option (String × Option String)) :=
  match fuel with
  | 0 => mthrow Err.fuelOut
  | fuel + 1 =>
    if assertion = "user" then
      if site.loginInfoAll = false then
        mthrow (Err.permissions "AssertEdit: user assertion failed, and no login info was provided.")
      else if tries = 0 then
        mbind doLogin fun _ =>
        mbind (setPage fun p => { p with token := none }) fun _ =>
        mbind (editF site fuel (some params) none none false false false none none none 1)
          fun _ =>
        mok none
      else
        mthrow (Err.login "Although we should be logged in, we are not.")
    else if assertion = "bot" then
      mthrow (Err.permissions "AssertEdit: bot assertion failed; we do not have a bot flag!")
    else
      mthrow (Err.permissions ("AssertEdit: assertion " ++ assertion ++ " failed."))

end

/-- Fuel large enough for every run: the edit recursion is two levels deep
and the redirect recursion three. -/
def FUEL : Nat := 6

/-- A fresh trace for one public method call on a page in state `p`. -/
def start (p : PageSt) : Tr := ⟨p, [], 0⟩

/-- `edit(text, summary, minor, bot, force)` (lines 677-690). -/
def runEdit (site : Site) (p : PageSt) (text summary : String)
    (minor bot force : Bool) : Except Err Unit × Tr :=
  editF site FUEL none (some text) (some summary) minor bot force none none none 0 (start p)

/-- `add_section(text, title, minor, bot, force)` (lines 692-703). -/
def runAddSection (site : Site) (p : PageSt) (text title : String)
    (minor bot force : Bool) : Except Err Unit × Tr :=
  editF site FUEL none (some text) (some title) minor bot force (some "new") none none 0
    (start p)

/-- `get()` on a page in state `p`. -/
def runGet (site : Site) (p : PageSt) : Except Err (Option String) × Tr :=
  getF site FUEL (start p)

/-- `_load()` on a page in state `p`. -/
def runLoad (site : Site) (p : PageSt) : Except Err Unit × Tr :=
  loadF site FUEL (start p)

/-- `reload()` on a page in state `p`. -/
def runReload (site : Site) (p : PageSt) : Except Err Unit × Tr :=
  reloadF site FUEL (start p)

/-- The `is_redirect` property on a page in state `p`. -/
def runIsRedirect (site : Site) (p : PageSt) : Except Err (Option Bool) × Tr :=
  isRedirectProp site FUEL (start p)

/-- `Page.__init__` (lines 75-123): strip the title, derive the namespace
from the colon prefix via the site converter (an unknown prefix, or no
prefix, gives namespace 0; the comparison is against the unstripped title as
in the source), and derive talkpage parity with the negative guard. -/
def pageInit (site : Site) (title : String) (follow_redirects : Bool) : PageSt :=
  let t := title.trim
  let pre := (t.splitOn ":").headD t
  let nsv : Int :=
    if pre != title then
      match site.nsNameToId pre with
      | some n => n
      | none => 0
    else 0
  { title := t, follow_redirects := follow_redirects, keep_following := follow_redirects,
    exists_ := 0, pageid := none, is_redirect := none, lastrevid := none,
    protection := none, fullurl := none, content := none, creator := none,
    token := none, basetimestamp := none, starttimestamp := none,
    ns := nsv,
    is_talkpage := if nsv < 0 then false else nsv % 2 == 1 }

/-- Does an edit response trigger the login-and-retry path: an anonymous
permission rejection, or a failed `user` session assertion on an otherwise
unsuccessful result. -/
def retriableReject : EditResp → Bool
  | EditResp.apiError (some code) _ =>
      code == "noedit-anon" || code == "cantcreate-anon" || code == "noimageredirect-anon"
  | EditResp.result r a => r != "Success" && a == some "user"
  | _ => false

/-- A computation only ever appends to the remote-call log. -/
def Extends {α : Type} (x : M α) : Prop :=
  ∀ tr, ∃ l, (x tr).2.log = tr.log ++ l

/-- `x` adds at most `n` remote calls satisfying `q` to the log. -/
def CBound (q : RCall → Bool) {α : Type} (x : M α) (n : Nat) : Prop :=
  ∀ tr, (x tr).2.log.countP q ≤ tr.log.countP q + n

/-! Concrete fixtures used by counterexamples and witnesses. -/

/-- A freshly constructed page state (what `pageInit` produces for a plain
mainspace title), written as a literal so the kernel can evaluate runs. -/
def p0 : PageSt :=
  { title := "Foo", follow_redirects := false, keep_following := false,
    exists_ := 0, pageid := none, is_redirect := none, lastrevid := none,
    protection := none, fullurl := none, content := none, creator := none,
    token := none, basetimestamp := none, starttimestamp := none,
    ns := 0, is_talkpage := false }

/-- A benign metadata+content result for an existing page. -/
def resOK : ApiResult :=
  { title := "Foo", redirect := false, pageid := 12, missing := false,
    fullurl := "u", protection := "p", edittoken := some "tok",
    ns := 0, lastrevid := some 5, creatorUser := some "alice",
    revContent := some ("body", "ts1") }

/-- An invalid-title result: negative id, no missing marker. -/
def resInv : ApiResult := { resOK with pageid := -1, missing := false }

/-- A missing-page result that reports a negative namespace. -/
def resNegNs : ApiResult := { resOK with pageid := -7, missing := true, ns := -1 }

/-- A missing-page result carrying a redirect marker. -/
def resMissRedir : ApiResult := { resOK with pageid := -7, missing := true, redirect := true }

/-- A result with no revisions (page deleted since the last fetch). -/
def resNoRev : ApiResult := { resOK with revContent := none }

/-- A result for an existing redirect page whose content is a redirect. -/
def resRedir : ApiResult :=
  { resOK with redirect := true, revContent := some ("#REDIRECT [[B]]", "ts0") }

/-- A benign site: every query answers `resOK`, every edit succeeds. -/
def siteA : Site :=
  { query := fun _ => resOK, editQuery := fun _ => EditResp.result "Success" none,
    loginInfoAll := true, nowStr := "now",
    nsNameToId := fun s => if s = "Talk" then some 1 else none }

/-- A site that always rejects edits with an anonymous-permission code. -/
def siteAnon : Site :=
  { siteA with editQuery := fun _ => EditResp.apiError (some "noedit-anon") "anon" }

/-- A site that always rejects edits with an edit conflict. -/
def siteConf : Site :=
  { siteA with editQuery := fun _ => EditResp.apiError (some "editconflict") "conflict" }

/-- A site that always classifies the queried title as invalid. -/
def siteInv : Site := { siteA with query := fun _ => resInv }

/-- A site whose first combined fetch has no revisions but whose follow-up
metadata fetch says the page exists (deleted and recreated mid-fetch). -/
def siteC8 : Site :=
  { siteA with query := fun n => if n = 0 then resNoRev else if n = 1 then resOK else resNoRev }

/-- A site for the reload counterexample: the page is a redirect, its content
fetch returns the redirect marker, and the target looks ordinary. -/
def siteR9 : Site :=
  { siteA with query := fun n =>
      if n = 0 then { resOK with redirect := true }
      else if n = 1 then resRedir
      else { resOK with title := "B" } }

/-- A site whose every query reports a redirect (a circular chain). -/
def siteCirc : Site := { siteA with query := fun _ => resRedir }

/-- A page with a cached edit token and known-existing state. -/
def pTok : PageSt := { p0 with token := some "tk", exists_ := 3 }

/-- A page whose cached state is Invalid, no token. -/
def pInv : PageSt := { p0 with exists_ := 1 }

/-- A page whose cached state is Invalid with a stale cached token. -/
def pInvTok : PageSt := { pInv with token := some "tk" }

/-- A page whose cached state is Missing, with a token. -/
def pMiss : PageSt := { p0 with token := some "tk", exists_ := 2 }

/-- A loaded page with cached content and base timestamp. -/
def pLoaded : PageSt := { pTok with content := some "old", basetimestamp := some "bt" }

/-- A fresh page constructed with redirect following enabled. -/
def p0F : PageSt := { p0 with follow_redirects := true, keep_following := true }

/-! Helper lemmas about the attribute update. -/

@[simp]
theorem applyRest_exists_ (p : PageSt) (res : ApiResult) (now : String) :
    (applyRest p res now).exists_ = p.exists_ := by
  unfold applyRest; cases res.edittoken <;> simp

@[simp]
theorem applyRest_keep_following (p : PageSt) (res : ApiResult) (now : String) :
    (applyRest p res now).keep_following = p.keep_following := by
  unfold applyRest; cases res.edittoken <;> simp

@[simp]
theorem applyRest_content (p : PageSt) (res : ApiResult) (now : String) :
    (applyRest p res now).content = p.content := by
  unfold applyRest; cases res.edittoken <;> simp

@[simp]
theorem applyRest_basetimestamp (p : PageSt) (res : ApiResult) (now : String) :
    (applyRest p res now).basetimestamp = p.basetimestamp := by
  unfold applyRest; cases res.edittoken <;> simp

@[simp]
theorem applyRest_is_redirect (p : PageSt) (res : ApiResult) (now : String) :
    (applyRest p res now).is_redirect = p.is_redirect := by
  unfold applyRest; cases res.edittoken <;> simp

@[simp]
theorem applyRest_ns (p : PageSt) (res : ApiResult) (now : String) :
    (applyRest p res now).ns = res.ns := by
  unfold applyRest; cases res.edittoken <;> simp

@[simp]
theorem applyRest_is_talkpage (p : PageSt) (res : ApiResult) (now : String) :
    (applyRest p res now).is_talkpage = (res.ns % 2 == 1) := by
  unfold applyRest; cases res.edittoken <;> simp

theorem applyRest_token (p : PageSt) (res : ApiResult) (now : String) :
    (applyRest p res now).token = (match res.edittoken with
      | none => p.token
      | some tk => some tk) := by
  unfold applyRest; cases res.edittoken <;> simp

/-- Existence classification performed by `_load_attributes`. -/
theorem applyAttributes_exists_ (p : PageSt) (res : ApiResult) (now : String) :
    (applyAttributes p res now).exists_ =
      (if res.pageid < 0 then (if res.missing then 2 else 1) else 3) := by
  unfold applyAttributes
  by_cases h : res.pageid < 0 <;> cases hm : res.missing <;> simp [h, hm]

@[simp]
theorem applyAttributes_keep_following (p : PageSt) (res : ApiResult) (now : String) :
    (applyAttributes p res now).keep_following = p.keep_following := by
  unfold applyAttributes
  by_cases h : res.pageid < 0 <;> cases hm : res.missing <;> simp [h, hm]

@[simp]
theorem applyAttributes_content (p : PageSt) (res : ApiResult) (now : String) :
    (applyAttributes p res now).content = p.content := by
  unfold applyAttributes
  by_cases h : res.pageid < 0 <;> cases hm : res.missing <;> simp [h, hm]

@[simp]
theorem applyAttributes_basetimestamp (p : PageSt) (res : ApiResult) (now : String) :
    (applyAttributes p res now).basetimestamp = p.basetimestamp := by
  unfold applyAttributes
  by_cases h : res.pageid < 0 <;> cases hm : res.missing <;> simp [h, hm]

@[simp]
theorem applyAttributes_is_redirect (p : PageSt) (res : ApiResult) (now : String) :
    (applyAttributes p res now).is_redirect = some res.redirect := by
  unfold applyAttributes
  by_cases h : res.pageid < 0 <;> cases hm : res.missing <;> simp [h, hm]

theorem applyAttributes_exists_ne_zero (p : PageSt) (res : ApiResult) (now : String) :
    (applyAttributes p res now).exists_ ≠ 0 := by
  rw [applyAttributes_exists_]
  by_cases h : res.pageid < 0 <;> cases hm : res.missing <;> simp [h, hm]

/-! Claim theorems. -/

/-- C4: every metadata fetch result is classified by `_load_attributes` as
Missing (2) when the page id is negative and the missing marker is present,
Invalid (1) when the id is negative without the marker, and Exists (3) for a
non-negative id; the Unknown state (0) never survives the fetch. -/
theorem existence_classification (p : PageSt) (res : ApiResult) (now : String) :
    (applyAttributes p res now).exists_ =
      (if res.pageid < 0 then (if res.missing then 2 else 1) else 3) ∧
    (applyAttributes p res now).exists_ ≠ 0 :=
  ⟨applyAttributes_exists_ p res now, applyAttributes_exists_ne_zero p res now⟩

/-- C5 counterexample: a successful metadata fetch reporting a missing page
in namespace -1 leaves `is_talkpage` true (Python `-1 % 2 == 1`), although
the namespace is negative, where the claim requires false. -/
theorem talkpage_negative_ns_cx :
    (applyAttributes p0 resNegNs "now").exists_ = 2 ∧
    (applyAttributes p0 resNegNs "now").ns = -1 ∧
    (applyAttributes p0 resNegNs "now").is_talkpage = true := by decide

/-- C5 (amended): at construction `is_talkpage` is namespace parity guarded
to false on negative namespaces; after a successful metadata fetch that does
not classify the page Invalid, `is_talkpage` equals `namespace % 2 == 1`
with Python modulo semantics for all namespaces, including negative ones
(the negative guard exists only in the constructor). -/
theorem talkpage_parity (site : Site) (title : String) (fr : Bool)
    (p : PageSt) (res : ApiResult) (now : String) :
    ((pageInit site title fr).is_talkpage =
      if (pageInit site title fr).ns < 0 then false
      else ((pageInit site title fr).ns % 2 == 1)) ∧
    ((applyAttributes p res now).exists_ ≠ 1 →
      (applyAttributes p res now).is_talkpage =
        ((applyAttributes p res now).ns % 2 == 1)) := by
  constructor
  · simp only [pageInit]
  · intro h
    rw [applyAttributes_exists_] at h
    unfold applyAttributes
    by_cases hp : res.pageid < 0 <;> cases hm : res.missing <;>
      simp [hp, hm] at h ⊢

/-- C5 witness: the amended fetch clause evaluated at a concrete result. -/
theorem talkpage_parity_witness :
    (applyAttributes p0 resOK "now").is_talkpage =
      ((applyAttributes p0 resOK "now").ns % 2 == 1) :=
  (talkpage_parity siteA "x" false p0 resOK "now").2 (by decide)

/-- C10 counterexample: a metadata fetch that classifies the page Missing
but carries a redirect marker makes the `is_redirect` accessor return true,
not the false the claim states for Missing pages. -/
theorem is_redirect_missing_cx :
    (applyAttributes p0 resMissRedir "now").exists_ = 2 ∧
    (runIsRedirect siteA (applyAttributes p0 resMissRedir "now")).1 =
      Except.ok (some true) := by
  constructor
  · decide
  · rfl

/-- C10 (amended): after every metadata fetch `is_redirect` is a definite
boolean — the fetch result's redirect marker, even when the page is Invalid
or Missing (false only when the result carries no marker) — and once
attributes are loaded the accessor returns that stored boolean without
raising and without remote calls. -/
theorem is_redirect_definite (p : PageSt) (res : ApiResult) (now : String)
    (site : Site) (q : PageSt) :
    (applyAttributes p res now).is_redirect = some res.redirect ∧
    (q.exists_ ≠ 0 →
      runIsRedirect site q = (Except.ok q.is_redirect, start q)) := by
  refine ⟨applyAttributes_is_redirect p res now, fun h => ?_⟩
  unfold runIsRedirect isRedirectProp
  simp [mbind, mgetTr, mok, start, h]

/-- C10 witness: the accessor on a loaded ordinary page. -/
theorem is_redirect_definite_witness :
    (applyAttributes p0 resOK "now").is_redirect = some false ∧
    runIsRedirect siteA pTok = (Except.ok pTok.is_redirect, start pTok) :=
  ⟨(is_redirect_definite p0 resOK "now" siteA pTok).1,
   (is_redirect_definite p0 resOK "now" siteA pTok).2 (by decide)⟩

/-- Token after a fetch whose result classifies the page invalid: the early
return fires before the token assignment, so the cached token is unchanged. -/
theorem applyAttributes_token_invalid (p : PageSt) (res : ApiResult) (now : String)
    (hp : res.pageid < 0) (hm : res.missing = false) :
    (applyAttributes p res now).token = p.token := by
  unfold applyAttributes; simp [hp, hm]

/-- C6 counterexample: `edit()` on a page whose cached state is Invalid and
which holds no cached token issues a metadata `api_query` before failing
(the log is `[metaQ]`, not `[]` as the claim requires), and the error raised
is `PermissionsError` from the token check, not a validity failure. -/
theorem invalid_edit_remote_call_cx :
    (runEdit siteInv pInv "t" "s" false true false).2.log = [RCall.metaQ] ∧
    (runEdit siteInv pInv "t" "s" false true false).1 =
      Except.error (Err.permissions "You do not have permission to edit this page.") := by
  constructor <;> rfl

/-- C6 (amended): `edit()` on a page cached Invalid never submits an edit
and never logs in: with a cached edit token it raises `InvalidPageError`
before any remote call; without one it first issues exactly one metadata
fetch and, when the page is again reported invalid (so no token appears),
raises `PermissionsError` with no further remote calls. -/
theorem invalid_edit_fails_fast (site : Site) (p : PageSt)
    (text summary : String) (minor bot force : Bool) (h1 : p.exists_ = 1) :
    (truthy p.token = true →
      (runEdit site p text summary minor bot force).1 =
        Except.error (Err.invalidPage "Page is invalid.") ∧
      (runEdit site p text summary minor bot force).2.log = []) ∧
    (truthy p.token = false → (site.query 0).pageid < 0 →
      (site.query 0).missing = false →
      (runEdit site p text summary minor bot force).1 =
        Except.error (Err.permissions "You do not have permission to edit this page.") ∧
      (runEdit site p text summary minor bot force).2.log = [RCall.metaQ]) := by
  constructor
  · intro htok
    unfold runEdit FUEL editF
    simp [mbind, mgetTr, mok, mthrow, start, htok, assert_validity, h1]
  · intro htok hp hm
    unfold runEdit FUEL editF
    simp [mbind, mgetTr, mok, mthrow, start, htok, load_attributes, queryIdx,
          addCall, applyAttributes_token_invalid _ _ _ hp hm]

/-- C6 witness: both amended clauses at concrete inputs. -/
theorem invalid_edit_fails_fast_witness :
    ((runEdit siteInv pInvTok "t" "s" false true false).1 =
        Except.error (Err.invalidPage "Page is invalid.") ∧
      (runEdit siteInv pInvTok "t" "s" false true false).2.log = []) ∧
    ((runEdit siteInv pInv "t" "s" false true false).1 =
        Except.error (Err.permissions "You do not have permission to edit this page.") ∧
      (runEdit siteInv pInv "t" "s" false true false).2.log = [RCall.metaQ]) :=
  ⟨(invalid_edit_fails_fast siteInv pInvTok "t" "s" false true false (by decide)).1 (by decide),
   (invalid_edit_fails_fast siteInv pInv "t" "s" false true false (by decide)).2
     (by decide) (by decide) (by decide)⟩

/-- C2: an edit rejected with a conflict-family code clears the cached
content, the base timestamp and the existence state (back to 0), raises
`EditConflictError` without any retry (one submission, no login), and the
next `get()` on the resulting state issues a fresh combined fetch and
returns the freshly fetched content instead of a stale cache. -/
theorem edit_conflict_invalidates (site site2 : Site) (p : PageSt)
    (text summary : String) (minor bot force : Bool) (c info : String)
    (ct : String × String)
    (hq : site.editQuery 0 = EditResp.apiError (some c) info)
    (hc : c = "editconflict" ∨ c = "pagedeleted" ∨ c = "articleexists")
    (htok : truthy p.token = true) (hex : p.exists_ ≠ 1)
    (hkf : p.keep_following = false)
    (hpid : ¬ (site2.query 0).pageid < 0)
    (hrev : (site2.query 0).revContent = some ct) :
    (runEdit site p text summary minor bot force).1 =
      Except.error (Err.editConflict info) ∧
    (runEdit site p text summary minor bot force).2.page.content = none ∧
    (runEdit site p text summary minor bot force).2.page.basetimestamp = none ∧
    (runEdit site p text summary minor bot force).2.page.exists_ = 0 ∧
    editCount (runEdit site p text summary minor bot force).2.log = 1 ∧
    loginCount (runEdit site p text summary minor bot force).2.log = 0 ∧
    (runGet site2 (runEdit site p text summary minor bot force).2.page).1 =
      Except.ok (some ct.1) ∧
    (runGet site2 (runEdit site p text summary minor bot force).2.page).2.log =
      [RCall.combinedQ] := by
  have hrun : runEdit site p text summary minor bot force =
      (Except.error (Err.editConflict info),
       ⟨{ p with content := none, basetimestamp := none, exists_ := 0 },
        [RCall.editQ (build_edit_params p (some text) (some summary) minor bot force
          none none none)], 0⟩) := by
    unfold runEdit FUEL editF
    simp only [mbind, mgetTr, mok, mthrow, start, htok, if_true, if_pos]
    simp [mbind, submitEdit, editCount, addCall, hq, handle_edit_errorsF, setPage,
          mthrow, mok, assert_validity, hex]
    rcases hc with h | h | h <;> subst h <;> simp [mbind, setPage, mthrow]
  rw [hrun]
  refine ⟨rfl, rfl, rfl, rfl, by simp [editCount, RCall.isEdit],
    by simp [loginCount, RCall.isLogin], ?_, ?_⟩ <;>
  · unfold runGet FUEL getF
    simp only [start]
    simp [mbind, mgetTr, mok, mthrow, addCall, queryIdx, load_attributes,
      load_content, assert_existence, assert_validity,
      applyAttributes_exists_, hpid, hrev, hkf]

/-- C2 witness: the conflict scenario at concrete inputs. -/
theorem edit_conflict_invalidates_witness :
    (runEdit siteConf pLoaded "txt" "sum" false true false).1 =
      Except.error (Err.editConflict "conflict") ∧
    (runEdit siteConf pLoaded "txt" "sum" false true false).2.page.content = none ∧
    (runEdit siteConf pLoaded "txt" "sum" false true false).2.page.basetimestamp = none ∧
    (runEdit siteConf pLoaded "txt" "sum" false true false).2.page.exists_ = 0 ∧
    editCount (runEdit siteConf pLoaded "txt" "sum" false true false).2.log = 1 ∧
    loginCount (runEdit siteConf pLoaded "txt" "sum" false true false).2.log = 0 ∧
    (runGet siteA (runEdit siteConf pLoaded "txt" "sum" false true false).2.page).1 =
      Except.ok (some "body") ∧
    (runGet siteA (runEdit siteConf pLoaded "txt" "sum" false true false).2.page).2.log =
      [RCall.combinedQ] :=
  edit_conflict_invalidates siteConf siteA pLoaded "txt" "sum" false true false
    "editconflict" "conflict" ("body", "ts1") rfl (Or.inl rfl) (by decide)
    (by decide) (by decide) (by decide) rfl

/-! Log monotonicity: every operation only appends remote calls. -/

theorem extends_mok {α : Type} (a : α) : Extends (mok a) :=
  fun tr => ⟨[], by simp [mok]⟩

theorem extends_mthrow {α : Type} (e : Err) : Extends (mthrow (α := α) e) :=
  fun tr => ⟨[], by simp [mthrow]⟩

theorem extends_mgetTr : Extends mgetTr :=
  fun tr => ⟨[], by simp [mgetTr]⟩

theorem extends_setPage (f : PageSt → PageSt) : Extends (setPage f) :=
  fun tr => ⟨[], by simp [setPage]⟩

theorem extends_addHop : Extends addHop :=
  fun tr => ⟨[], by simp [addHop]⟩

theorem extends_doLogin : Extends doLogin :=
  fun tr => ⟨[RCall.loginC], by simp [doLogin, addCall]⟩

theorem extends_submitEdit (site : Site) (ps : EditParams) :
    Extends (submitEdit site ps) :=
  fun tr => ⟨[RCall.editQ ps], by simp [submitEdit, addCall]⟩

theorem extends_load_attributes (site : Site) (given : Option ApiResult) :
    Extends (load_attributes site given) := by
  intro tr
  cases given with
  | some res => exact ⟨[], by simp [load_attributes]⟩
  | none => exact ⟨[RCall.metaQ], by simp [load_attributes, addCall]⟩

theorem extends_assert_validity : Extends assert_validity := by
  intro tr
  unfold assert_validity
  split <;> exact ⟨[], by simp⟩

theorem extends_mbind {α β : Type} {x : M α} {f : α → M β}
    (hx : Extends x) (hf : ∀ a, Extends (f a)) : Extends (mbind x f) := by
  intro tr
  unfold mbind
  rcases h : x tr with ⟨r, tr1⟩
  obtain ⟨l1, hl1⟩ := hx tr
  rw [h] at hl1
  cases r with
  | ok a =>
      obtain ⟨l2, hl2⟩ := hf a tr1
      simp only at hl1
      exact ⟨l1 ++ l2, by rw [hl2, hl1, List.append_assoc]⟩
  | error e => exact ⟨l1, hl1⟩

theorem extends_assert_existence : Extends assert_existence := by
  apply extends_mbind extends_assert_validity
  intro a tr
  simp only [assert_existence]
  split <;> exact ⟨[], by simp⟩

theorem extends_load_content (site : Site) (given : Option ApiResult) :
    Extends (load_content site given) := by
  intro tr
  unfold load_content
  cases given with
  | some res =>
      simp only
      split
      · exact ⟨[], by simp⟩
      · exact extends_mbind (extends_load_attributes site none)
          (fun _ => extends_assert_existence) tr
  | none =>
      simp only
      split
      · exact ⟨[RCall.contentQ], by simp [addCall]⟩
      · obtain ⟨l, hl⟩ :=
          extends_mbind (extends_load_attributes site none)
            (fun _ => extends_assert_existence) (addCall RCall.contentQ tr)
        refine ⟨RCall.contentQ :: l, ?_⟩
        simp only [addCall] at hl ⊢
        simpa [List.append_assoc] using hl

/-- The whole edit family only appends to the log. -/
theorem edit_family_extends (site : Site) : ∀ fuel : Nat,
    (∀ pmO t s m b fo sc c1 c2 tries,
      Extends (editF site fuel pmO t s m b fo sc c1 c2 tries)) ∧
    (∀ code info ps tries, Extends (handle_edit_errorsF site fuel code info ps tries)) ∧
    (∀ assertion ps tries, Extends (handle_assert_editF site fuel assertion ps tries)) := by
  intro fuel
  induction fuel with
  | zero =>
      exact ⟨fun _ _ _ _ _ _ _ _ _ _ tr => ⟨[], by simp [editF, mthrow]⟩,
             fun _ _ _ _ tr => ⟨[], by simp [handle_edit_errorsF, mthrow]⟩,
             fun _ _ _ tr => ⟨[], by simp [handle_assert_editF, mthrow]⟩⟩
  | succ n ih =>
      obtain ⟨ihE, ihH, ihA⟩ := ih
      have hretry : ∀ ps : EditParams, Extends
          (mbind doLogin fun _ =>
           mbind (setPage fun p => { p with token := none }) fun _ =>
           mbind (editF site n (some ps) none none false false false none none none 1)
             fun _ => mok (none : Option (String × Option String))) := by
        intro ps
        exact extends_mbind extends_doLogin fun _ =>
          extends_mbind (extends_setPage _) fun _ =>
          extends_mbind (ihE _ _ _ _ _ _ _ _ _ _) fun _ => extends_mok _
      have hH : ∀ code info ps tries,
          Extends (handle_edit_errorsF site (n + 1) code info ps tries) := by
        intro code info ps tries
        simp only [handle_edit_errorsF]
        split
        · exact extends_mthrow _
        split
        · split
          · exact extends_mthrow _
          split
          · exact hretry ps
          · exact extends_mthrow _
        split
        · exact extends_mbind (extends_setPage _) fun _ => extends_mthrow _
        split
        · exact extends_mthrow _
        split
        · exact extends_mthrow _
        split
        · exact extends_mthrow _
        split
        · exact extends_mthrow _
        · exact extends_mthrow _
      have hA : ∀ assertion ps tries,
          Extends (handle_assert_editF site (n + 1) assertion ps tries) := by
        intro assertion ps tries
        simp only [handle_assert_editF]
        split
        · split
          · exact extends_mthrow _
          split
          · exact hretry ps
          · exact extends_mthrow _
        split
        · exact extends_mthrow _
        · exact extends_mthrow _
      refine ⟨?_, hH, hA⟩
      intro pmO t s m b fo sc c1 c2 tries
      simp only [editF]
      apply extends_mbind extends_mgetTr
      intro tr0
      apply extends_mbind
      · split
        · exact extends_mok _
        · exact extends_load_attributes site none
      intro _
      apply extends_mbind extends_mgetTr
      intro tr1
      apply extends_mbind
      · split
        · exact extends_mok _
        · exact extends_mthrow _
      intro _
      apply extends_mbind extends_assert_validity
      intro _
      apply extends_mbind extends_mgetTr
      intro tr2
      apply extends_mbind (extends_submitEdit site _)
      intro resp
      apply extends_mbind
      · match resp with
        | EditResp.result r a => exact extends_mok _
        | EditResp.apiError none info => exact extends_mthrow _
        | EditResp.apiError (some code) info => exact ihH _ _ _ _
      intro result
      match result with
      | none => exact extends_mthrow _
      | some ra =>
          simp only
          split
          · exact extends_setPage _
          match ra.2 with
          | none => exact extends_mthrow _
          | some assertion =>
              exact extends_mbind (ihA _ _ _) fun _ => extends_mok _

/-- The create-guard of `_build_edit_params` is set exactly when `force` is
off and the cached existence state is Missing. -/
theorem build_edit_params_createonly (p : PageSt) (text summary : Option String)
    (minor bot force : Bool) (sect c1 c2 : Option String) :
    (build_edit_params p text summary minor bot force sect c1 c2).createonly =
      (if force then false else if p.exists_ = 2 then true else false) := by
  unfold build_edit_params
  split_ifs <;> rfl

/-- An `_edit` call that finds a cached token and a valid page submits, as
its first remote call, exactly the parameter dict built from the current
page state; whatever happens afterwards only appends further calls. -/
theorem edit_submits_params (site : Site) (fuel : Nat)
    (t s : Option String) (m b fo : Bool) (sc c1 c2 : Option String) (tries : Nat)
    (tr : Tr) (htok : truthy tr.page.token = true) (hval : tr.page.exists_ ≠ 1) :
    ∃ l, (editF site (fuel + 1) none t s m b fo sc c1 c2 tries tr).2.log =
      tr.log ++ RCall.editQ (build_edit_params tr.page t s m b fo sc c1 c2) :: l := by
  simp only [editF, mbind, mgetTr, mok, htok, if_true, assert_validity]
  rw [if_neg hval]
  simp only [mbind, submitEdit, addCall]
  cases hresp : site.editQuery (editCount tr.log) with
  | apiError code info =>
    rcases code with _ | code
    · exact ⟨[], by simp [mthrow]⟩
    · obtain ⟨l, hl⟩ :=
        extends_mbind (x := handle_edit_errorsF site fuel code info
            (build_edit_params tr.page t s m b fo sc c1 c2) tries)
          ((edit_family_extends site fuel).2.1 _ _ _ _)
          (f := fun result =>
            match result with
            | none => mthrow (Err.pyTypeError "NoneType object is not subscriptable")
            | some ra =>
              if ra.1 = "Success" then
                setPage fun p =>
                  { p with content := none, basetimestamp := none, exists_ := 0 }
              else
                match ra.2 with
                | none => mthrow (Err.editErr ra.1)
                | some assertion =>
                    mbind (handle_assert_editF site fuel assertion
                      (build_edit_params tr.page t s m b fo sc c1 c2) tries)
                      fun _ => mok ())
          (fun result => by
            match result with
            | none => exact extends_mthrow _
            | some ra =>
                simp only
                split
                · exact extends_setPage _
                match ra.2 with
                | none => exact extends_mthrow _
                | some assertion =>
                    exact extends_mbind ((edit_family_extends site fuel).2.2 _ _ _)
                      fun _ => extends_mok _)
          { page := tr.page,
            log := tr.log ++ [RCall.editQ (build_edit_params tr.page t s m b fo sc c1 c2)],
            hops := tr.hops }
      exact ⟨l, by simpa [List.append_assoc] using hl⟩
  | result r a =>
    by_cases hs : r = "Success"
    · exact ⟨[], by simp [mbind, mok, setPage, hs]⟩
    · rcases a with _ | assertion
      · exact ⟨[], by simp [mbind, mok, mthrow, hs]⟩
      · obtain ⟨l, hl⟩ :=
          extends_mbind ((edit_family_extends site fuel).2.2 assertion
              (build_edit_params tr.page t s m b fo sc c1 c2) tries)
            (fun _ => extends_mok ())
            { page := tr.page,
              log := tr.log ++ [RCall.editQ (build_edit_params tr.page t s m b fo sc c1 c2)],
              hops := tr.hops }
        refine ⟨l, ?_⟩
        simp only [mbind, mok, if_neg hs]
        simp only [mbind, mok] at hl
        simpa [List.append_assoc] using hl

/-- C3: a successful edit submission clears the cached content, the base
timestamp and the existence state (back to 0) before returning, so a second
`edit()` on a page that was Missing before the first edit (whose first
submission did carry the create-guard) builds and submits its parameter dict
without `createonly`. -/
theorem edit_success_resets (site site2 : Site) (p : PageSt)
    (text summary text2 summary2 : String) (minor bot minor2 bot2 : Bool)
    (a : Option String)
    (hq : site.editQuery 0 = EditResp.result "Success" a)
    (htok : truthy p.token = true) (hmiss : p.exists_ = 2) :
    (runEdit site p text summary minor bot false).1 = Except.ok () ∧
    (runEdit site p text summary minor bot false).2.page.content = none ∧
    (runEdit site p text summary minor bot false).2.page.basetimestamp = none ∧
    (runEdit site p text summary minor bot false).2.page.exists_ = 0 ∧
    (build_edit_params p (some text) (some summary) minor bot false
      none none none).createonly = true ∧
    (∃ l, (runEdit site2 (runEdit site p text summary minor bot false).2.page
        text2 summary2 minor2 bot2 false).2.log =
      RCall.editQ (build_edit_params (runEdit site p text summary minor bot false).2.page
        (some text2) (some summary2) minor2 bot2 false none none none) :: l) ∧
    (build_edit_params (runEdit site p text summary minor bot false).2.page
      (some text2) (some summary2) minor2 bot2 false none none none).createonly = false := by
  have hrun : runEdit site p text summary minor bot false =
      (Except.ok (),
       ⟨{ p with content := none, basetimestamp := none, exists_ := 0 },
        [RCall.editQ (build_edit_params p (some text) (some summary) minor bot false
          none none none)], 0⟩) := by
    unfold runEdit FUEL editF
    simp only [mbind, mgetTr, mok, mthrow, start, htok, if_true]
    simp [mbind, submitEdit, editCount, addCall, hq, setPage, mok,
          assert_validity, hmiss]
  rw [hrun]
  refine ⟨rfl, rfl, rfl, rfl, ?_, ?_, ?_⟩
  · rw [build_edit_params_createonly]
    simp [hmiss]
  · have h := edit_submits_params site2 5 (some text2) (some summary2) minor2 bot2 false
      none none none 0
      (start { p with content := none, basetimestamp := none, exists_ := 0 })
      (by simpa [start] using htok) (by simp [start])
    simpa [runEdit, FUEL, start] using h
  · rw [build_edit_params_createonly]
    simp

/-- C3 witness: the Missing-page double-edit scenario at concrete inputs. -/
theorem edit_success_resets_witness :
    (runEdit siteA pMiss "txt" "sum" false true false).1 = Except.ok () ∧
    (runEdit siteA pMiss "txt" "sum" false true false).2.page.content = none ∧
    (runEdit siteA pMiss "txt" "sum" false true false).2.page.basetimestamp = none ∧
    (runEdit siteA pMiss "txt" "sum" false true false).2.page.exists_ = 0 ∧
    (build_edit_params pMiss (some "txt") (some "sum") false true false
      none none none).createonly = true ∧
    (∃ l, (runEdit siteA (runEdit siteA pMiss "txt" "sum" false true false).2.page
        "t2" "s2" false true false).2.log =
      RCall.editQ (build_edit_params
        (runEdit siteA pMiss "txt" "sum" false true false).2.page
        (some "t2") (some "s2") false true false none none none) :: l) ∧
    (build_edit_params (runEdit siteA pMiss "txt" "sum" false true false).2.page
      (some "t2") (some "s2") false true false none none none).createonly = false :=
  edit_success_resets siteA siteA pMiss "txt" "sum" "t2" "s2" false true false true
    none rfl (by decide) (by decide)

/-- `_assert_validity` never mutates the state. -/
theorem assert_validity_state (tr : Tr) : (assert_validity tr).2 = tr := by
  unfold assert_validity; split <;> rfl

/-- `_assert_existence` never mutates the state. -/
theorem assert_existence_state (tr : Tr) : (assert_existence tr).2 = tr := by
  unfold assert_existence mbind
  rcases h : assert_validity tr with ⟨r, tr1⟩
  have hst := assert_validity_state tr
  rw [h] at hst
  cases r with
  | ok a => simp only; split <;> simpa using hst
  | error e => simpa using hst

/-- The recovery path of `_load_content` (re-fetch attributes, re-assert
existence) appends exactly one metadata query to the log. -/
theorem load_attr_assert_log (site : Site) (tr : Tr) :
    ((mbind (load_attributes site none) fun _ => assert_existence) tr).2.log =
      tr.log ++ [RCall.metaQ] := by
  unfold mbind load_attributes
  simp only [addCall]
  rw [assert_existence_state]

/-- C8 counterexample: when the combined fetch of the first `get()` carries
no revisions (page deleted mid-fetch) and the follow-up metadata fetch says
the page was recreated, content stays unset, and a second `get()` issues a
second remote content fetch — two content fetches for two successive calls,
and the second call is not remote-free. -/
theorem get_twice_refetch_cx :
    contentFetchCount (runGet siteC8 p0).2.log +
      contentFetchCount (runGet siteC8 (runGet siteC8 p0).2.page).2.log = 2 ∧
    (runGet siteC8 (runGet siteC8 p0).2.page).2.log = [RCall.contentQ, RCall.metaQ] := by
  constructor <;> rfl

/-- C8 (amended): provided the first `get()` actually cached content (the
page state it leaves is Exists with content present — true in every run
without a delete/recreate race), a second `get()` with no intervening
`reload()` makes no remote call at all and returns the cached value. -/
theorem get_cached_no_refetch (site site2 : Site) (p : PageSt) (c : String)
    (hc : (runGet site p).2.page.content = some c)
    (he : (runGet site p).2.page.exists_ = 3) :
    (runGet site2 (runGet site p).2.page).1 = Except.ok (some c) ∧
    (runGet site2 (runGet site p).2.page).2.log = [] := by
  generalize (runGet site p).2.page = q at hc he
  constructor <;>
  · unfold runGet FUEL getF
    simp [mbind, mgetTr, mok, start, assert_existence, assert_validity, he, hc]

/-- C8 witness: a second `get()` after an ordinary first one is remote-free. -/
theorem get_cached_no_refetch_witness :
    (runGet siteA (runGet siteA p0).2.page).1 = Except.ok (some "body") ∧
    (runGet siteA (runGet siteA p0).2.page).2.log = [] :=
  get_cached_no_refetch siteA siteA p0 "body" rfl rfl

/-- C9 counterexample: `reload()` on a freshly constructed page with
redirect following enabled, whose title turns out to be a redirect, fetches
the page's content (to locate the redirect target) although content was
never requested: the log contains a content fetch, where the claim allows
none. -/
theorem reload_fetches_content_cx :
    p0F.content = none ∧
    (runReload siteR9 p0F).2.log = [RCall.metaQ, RCall.contentQ, RCall.metaQ] ∧
    contentFetchCount (runReload siteR9 p0F).2.log = 1 := by
  refine ⟨rfl, rfl, rfl⟩

/-- C9 (amended): on a page that will not auto-follow a redirect during the
reload (`keep_following` off), `reload()` with never-fetched content performs
exactly the metadata re-fetch and no content fetch, leaving content unset;
and it performs exactly one content re-fetch when content was previously
cached.  (When redirect following triggers, the content of the redirect page
is fetched to locate its target, but the cached content is reset to unset.) -/
theorem reload_no_content_fetch (site : Site) (p : PageSt)
    (hkf : p.keep_following = false) :
    (p.content = none →
      (runReload site p).2.log = [RCall.metaQ] ∧
      (runReload site p).2.page.content = none ∧
      (runReload site p).1 = Except.ok ()) ∧
    (∀ c, p.content = some c →
      contentFetchCount (runReload site p).2.log = 1) := by
  constructor
  · intro hcont
    unfold runReload FUEL reloadF loadF
    refine ⟨?_, ?_, ?_⟩ <;>
      simp [mbind, mgetTr, mok, start, load_attributes, addCall, queryIdx,
            hkf, hcont]
  · intro c hcont
    have hload : loadF site 6 (start p) =
        (Except.ok (),
         ⟨applyAttributes p (site.query 0) site.nowStr, [RCall.metaQ], 0⟩) := by
      unfold loadF
      simp [mbind, mgetTr, mok, load_attributes, addCall, queryIdx, start, hkf]
    unfold runReload FUEL reloadF
    simp only [mbind, hload, mgetTr]
    rw [if_pos (by simp [hcont])]
    unfold load_content
    simp only [queryIdx, addCall]
    split
    · simp [contentFetchCount, RCall.isContentFetch]
    · rw [load_attr_assert_log]
      simp [contentFetchCount, RCall.isContentFetch]

/-- C9 witness: both amended clauses at concrete inputs. -/
theorem reload_no_content_fetch_witness :
    ((runReload siteA p0).2.log = [RCall.metaQ] ∧
      (runReload siteA p0).2.page.content = none ∧
      (runReload siteA p0).1 = Except.ok ()) ∧
    contentFetchCount (runReload siteA pLoaded).2.log = 1 :=
  ⟨(reload_no_content_fetch siteA p0 (by decide)).1 rfl,
   (reload_no_content_fetch siteA pLoaded (by decide)).2 "old" rfl⟩

/-! Redirect-hop accounting (C7). -/

theorem mbind_eq_ok {α β : Type} {x : M α} {f : α → M β} {tr tr1 : Tr} {a : α}
    (h : x tr = (Except.ok a, tr1)) : mbind x f tr = f a tr1 := by
  unfold mbind; rw [h]

theorem mbind_eq_err {α β : Type} {x : M α} {f : α → M β} {tr tr1 : Tr} {e : Err}
    (h : x tr = (Except.error e, tr1)) : mbind x f tr = (Except.error e, tr1) := by
  unfold mbind; rw [h]


theorem load_attributes_hk (site : Site) (g : Option ApiResult) (tr : Tr) :
    ((load_attributes site g) tr).2.hops = tr.hops ∧
    ((load_attributes site g) tr).2.page.keep_following = tr.page.keep_following := by
  cases g <;> simp [load_attributes, addCall]

theorem load_attributes_fst (site : Site) (g : Option ApiResult) (tr : Tr) :
    ((load_attributes site g) tr).1 = Except.ok () := by
  cases g <;> simp [load_attributes]

theorem load_attributes_exists_ne0 (site : Site) (g : Option ApiResult) (tr : Tr) :
    ((load_attributes site g) tr).2.page.exists_ ≠ 0 := by
  cases g <;> simp [load_attributes, addCall, applyAttributes_exists_ne_zero]

theorem applyAttributes_exists_cases (p : PageSt) (res : ApiResult) (now : String) :
    (applyAttributes p res now).exists_ = 1 ∨ (applyAttributes p res now).exists_ = 2 ∨
    (applyAttributes p res now).exists_ = 3 := by
  rw [applyAttributes_exists_]
  by_cases h : res.pageid < 0 <;> cases hm : res.missing <;> simp [h, hm]

theorem load_attributes_exists_cases (site : Site) (g : Option ApiResult) (tr : Tr) :
    ((load_attributes site g) tr).2.page.exists_ = 1 ∨
    ((load_attributes site g) tr).2.page.exists_ = 2 ∨
    ((load_attributes site g) tr).2.page.exists_ = 3 := by
  cases g <;> simp [load_attributes, addCall, applyAttributes_exists_cases]

theorem assert_existence_ok_exists (tr : Tr)
    (h : (assert_existence tr).1 = Except.ok ()) :
    tr.page.exists_ ≠ 1 ∧ tr.page.exists_ ≠ 2 := by
  unfold assert_existence mbind assert_validity at h
  by_cases h1 : tr.page.exists_ = 1
  · simp [h1] at h
  · by_cases h2 : tr.page.exists_ = 2 <;> simp [h1, h2] at h ⊢

theorem load_content_hk (site : Site) (g : Option ApiResult) (tr : Tr) :
    ((load_content site g) tr).2.hops = tr.hops ∧
    ((load_content site g) tr).2.page.keep_following = tr.page.keep_following := by
  unfold load_content
  cases g with
  | some res =>
      simp only
      split
      · simp
      · rcases hl : load_attributes site none tr with ⟨r, tr1⟩
        have hk := load_attributes_hk site none tr
        rw [hl] at hk
        simp only [mbind, hl]
        cases r with
        | ok a =>
            rw [assert_existence_state tr1]
            exact hk
        | error e => exact hk
  | none =>
      simp only
      split
      · simp [addCall]
      · rcases hl : load_attributes site none (addCall RCall.contentQ tr) with ⟨r, tr1⟩
        have hk := load_attributes_hk site none (addCall RCall.contentQ tr)
        rw [hl] at hk
        simp only [addCall] at hk
        simp only [mbind, hl]
        cases r with
        | ok a =>
            rw [assert_existence_state tr1]
            exact hk
        | error e => exact hk

theorem load_content_ok_exists3 (site : Site) (g : Option ApiResult) (tr : Tr)
    (h3 : tr.page.exists_ = 3) :
    ((load_content site g) tr).1 = Except.ok () →
    ((load_content site g) tr).2.page.exists_ = 3 := by
  rcases hfull : load_content site g tr with ⟨r, tr2⟩
  intro hok
  simp only at hok ⊢
  subst hok
  unfold load_content at hfull
  cases g with
  | some res =>
      simp only at hfull
      cases hrc : res.revContent with
      | some ct =>
          rw [hrc] at hfull
          simp only [Prod.mk.injEq] at hfull
          rw [← hfull.2]
          simpa using h3
      | none =>
          rw [hrc] at hfull
          unfold mbind at hfull
          rcases hl : load_attributes site none tr with ⟨ra, tr1⟩
          rw [hl] at hfull
          cases ra with
          | error e => simp at hfull
          | ok a =>
              simp only at hfull
              have hst := assert_existence_state tr1
              rw [hfull] at hst
              simp only at hst
              have hfst : (assert_existence tr1).1 = Except.ok () := by rw [hfull]
              have hne := assert_existence_ok_exists tr1 hfst
              have hcs := load_attributes_exists_cases site none tr
              rw [hl] at hcs
              simp only at hcs
              rw [hst]
              rcases hcs with h | h | h <;> simp_all
  | none =>
      simp only at hfull
      cases hrc : (site.query (queryIdx tr.log)).revContent with
      | some ct =>
          rw [hrc] at hfull
          simp only [Prod.mk.injEq] at hfull
          rw [← hfull.2]
          simpa [addCall] using h3
      | none =>
          rw [hrc] at hfull
          unfold mbind at hfull
          rcases hl : load_attributes site none (addCall RCall.contentQ tr) with ⟨ra, tr1⟩
          rw [hl] at hfull
          cases ra with
          | error e => simp at hfull
          | ok a =>
              simp only at hfull
              have hst := assert_existence_state tr1
              rw [hfull] at hst
              simp only at hst
              have hfst : (assert_existence tr1).1 = Except.ok () := by rw [hfull]
              have hne := assert_existence_ok_exists tr1 hfst
              have hcs := load_attributes_exists_cases site none (addCall RCall.contentQ tr)
              rw [hl] at hcs
              simp only at hcs
              rw [hst]
              rcases hcs with h | h | h <;> simp_all

/-- On a page whose existence is already known, `get` never hops and never
touches the follow flag. -/
theorem getF_ne0 (site : Site) : ∀ (fuel : Nat) (tr : Tr),
    tr.page.exists_ ≠ 0 →
    (getF site fuel tr).2.hops = tr.hops ∧
    (getF site fuel tr).2.page.keep_following = tr.page.keep_following := by
  intro fuel tr h
  cases fuel with
  | zero => simp [getF, mthrow]
  | succ n =>
      simp only [getF]
      rw [if_neg h]
      rcases ha : assert_existence tr with ⟨r, tr1⟩
      have h1 := assert_existence_state tr
      rw [ha] at h1
      simp only at h1
      rw [h1] at ha
      simp only [mbind, ha]
      cases r with
      | error e => exact ⟨rfl, rfl⟩
      | ok a =>
          simp only [mgetTr]
          split
          · rcases hc : load_content site none tr with ⟨r2, tr2⟩
            have hk := load_content_hk site none tr
            rw [hc] at hk
            simp only at hk
            simp only [mbind, hc]
            cases r2 with
            | ok b => simpa [mgetTr, mok] using hk
            | error e => simpa using hk
          · simp [mok]

/-- With following disabled, `get` never hops and leaves following disabled. -/
theorem getF_kf_false (site : Site) : ∀ (fuel : Nat) (tr : Tr),
    tr.page.keep_following = false →
    (getF site fuel tr).2.hops = tr.hops ∧
    (getF site fuel tr).2.page.keep_following = false := by
  intro fuel tr h
  cases fuel with
  | zero => simp [getF, mthrow, h]
  | succ n =>
      by_cases hex : tr.page.exists_ = 0
      · simp only [getF]
        rw [if_pos hex]
        rcases hl : load_attributes site (some (site.query (queryIdx tr.log)))
            (addCall RCall.combinedQ tr) with ⟨r, tr1⟩
        have hok := load_attributes_fst site (some (site.query (queryIdx tr.log)))
          (addCall RCall.combinedQ tr)
        rw [hl] at hok
        simp only at hok
        cases r with
        | error e => simp at hok
        | ok a =>
        have hk := load_attributes_hk site (some (site.query (queryIdx tr.log)))
          (addCall RCall.combinedQ tr)
        rw [hl] at hk
        simp only [addCall] at hk
        simp only [mbind_eq_ok hl]
        rcases ha : assert_existence tr1 with ⟨r2, tr2⟩
        have h2 := assert_existence_state tr1
        rw [ha] at h2
        simp only at h2
        rw [h2] at ha
        cases r2 with
        | error e =>
            simp only [mbind_eq_err ha]
            exact ⟨hk.1, hk.2.trans h⟩
        | ok b =>
            simp only [mbind_eq_ok ha]
            rcases hc : load_content site (some (site.query (queryIdx tr.log))) tr1
                with ⟨r3, tr3⟩
            have hk3 := load_content_hk site (some (site.query (queryIdx tr.log))) tr1
            rw [hc] at hk3
            simp only at hk3
            have hkf3 : tr3.page.keep_following = false := by
              rw [hk3.2, hk.2, h]
            have hh3 : tr3.hops = tr.hops := by rw [hk3.1, hk.1]
            cases r3 with
            | error e =>
                simp only [mbind_eq_err hc]
                exact ⟨hh3, hkf3⟩
            | ok cc =>
                simp only [mbind_eq_ok hc, mbind_eq_ok (show mgetTr tr3 = (Except.ok tr3, tr3) from rfl)]
                simp only [hkf3, Bool.false_and, Bool.false_eq_true, if_neg, mok,
                  not_false_eq_true]
                exact ⟨hh3, trivial⟩
      · have := getF_ne0 site (n + 1) tr hex
        exact ⟨this.1, this.2.trans h⟩

/-- On a page whose existence is already known, `get_redirect_target` never
hops and never touches the follow flag. -/
theorem grtF_ne0 (site : Site) : ∀ (fuel : Nat) (tr : Tr),
    tr.page.exists_ ≠ 0 →
    (get_redirect_targetF site fuel tr).2.hops = tr.hops ∧
    (get_redirect_targetF site fuel tr).2.page.keep_following =
      tr.page.keep_following := by
  intro fuel tr h
  cases fuel with
  | zero => simp [get_redirect_targetF, mthrow]
  | succ n =>
      simp only [get_redirect_targetF]
      rcases hg : getF site n tr with ⟨r, tr1⟩
      have hk := getF_ne0 site n tr h
      rw [hg] at hk
      simp only [mbind, hg]
      cases r with
      | error e => exact hk
      | ok content =>
          cases content with
          | none => exact hk
          | some c =>
              simp only
              cases findRedirect c <;> simpa [mok, mthrow] using hk

/-- Hop bound for `get`: at most one automatic redirect hop, only when
following is enabled, and a hop disables following. -/
theorem getF_hops (site : Site) : ∀ (fuel : Nat) (tr : Tr),
    (getF site fuel tr).2.hops ≤ tr.hops + (if tr.page.keep_following then 1 else 0) ∧
    (tr.hops < (getF site fuel tr).2.hops →
      (getF site fuel tr).2.page.keep_following = false) := by
  intro fuel tr
  cases fuel with
  | zero => simp [getF, mthrow]
  | succ n =>
      by_cases hex : tr.page.exists_ = 0
      · simp only [getF]
        rw [if_pos hex]
        rcases hl : load_attributes site (some (site.query (queryIdx tr.log)))
            (addCall RCall.combinedQ tr) with ⟨r, tr1⟩
        have hok := load_attributes_fst site (some (site.query (queryIdx tr.log)))
          (addCall RCall.combinedQ tr)
        rw [hl] at hok
        simp only at hok
        cases r with
        | error e => simp at hok
        | ok a =>
        have hk := load_attributes_hk site (some (site.query (queryIdx tr.log)))
          (addCall RCall.combinedQ tr)
        rw [hl] at hk
        simp only [addCall] at hk
        have hcs := load_attributes_exists_cases site (some (site.query (queryIdx tr.log)))
          (addCall RCall.combinedQ tr)
        rw [hl] at hcs
        simp only at hcs
        simp only [mbind_eq_ok hl]
        rcases ha : assert_existence tr1 with ⟨r2, tr2⟩
        have h2 := assert_existence_state tr1
        rw [ha] at h2
        simp only at h2
        rw [h2] at ha
        cases r2 with
        | error e =>
            simp only [mbind_eq_err ha, hk.1]
            exact ⟨Nat.le_add_right _ _, by simp⟩
        | ok b =>
            have hafst : (assert_existence tr1).1 = Except.ok () := by rw [ha]
            have hex1 : tr1.page.exists_ = 3 := by
              have := assert_existence_ok_exists tr1 hafst
              rcases hcs with hcase | hcase | hcase <;> simp_all
            simp only [mbind_eq_ok ha]
            rcases hc : load_content site (some (site.query (queryIdx tr.log))) tr1
                with ⟨r3, tr3⟩
            have hk3 := load_content_hk site (some (site.query (queryIdx tr.log))) tr1
            rw [hc] at hk3
            simp only at hk3
            have hh3 : tr3.hops = tr.hops := by rw [hk3.1, hk.1]
            cases r3 with
            | error e =>
                simp only [mbind_eq_err hc, hh3]
                exact ⟨Nat.le_add_right _ _, by simp⟩
            | ok cc =>
                have hcfst : (load_content site (some (site.query (queryIdx tr.log)))
                    tr1).1 = Except.ok () := by rw [hc]
                have hex3 : tr3.page.exists_ = 3 := by
                  have := load_content_ok_exists3 site
                    (some (site.query (queryIdx tr.log))) tr1 hex1 hcfst
                  rw [hc] at this
                  exact this
                simp only [mbind_eq_ok hc,
                  mbind_eq_ok (show mgetTr tr3 = (Except.ok tr3, tr3) from rfl)]
                by_cases hguard :
                    (tr3.page.keep_following && tr3.page.is_redirect == some true) = true
                · rw [if_pos hguard]
                  have hkf3 : tr3.page.keep_following = true :=
                    (Bool.and_eq_true _ _ |>.mp hguard).1
                  have hkftr : tr.page.keep_following = true := by
                    rw [← hk.2, ← hk3.2, hkf3]
                  rcases hg : get_redirect_targetF site n tr3 with ⟨rg, tr4⟩
                  have hk4 := grtF_ne0 site n tr3 (by rw [hex3]; decide)
                  rw [hg] at hk4
                  simp only at hk4
                  have hh4 : tr4.hops = tr.hops := by rw [hk4.1, hh3]
                  cases rg with
                  | error e =>
                      simp only [mbind_eq_err hg, hh4]
                      exact ⟨Nat.le_add_right _ _, by simp⟩
                  | ok target =>
                      simp only [mbind_eq_ok hg]
                      simp only [mbind, setPage, addHop, mgetTr, mok]
                      rcases hrec : getF site n
                          ⟨{ tr4.page with
                              title := target,
                              keep_following := false,
                              exists_ := 0 }, tr4.log, tr4.hops + 1⟩ with ⟨rr, tr5⟩
                      have hfin := getF_kf_false site n
                        ⟨{ tr4.page with
                            title := target,
                            keep_following := false,
                            exists_ := 0 }, tr4.log, tr4.hops + 1⟩ rfl
                      rw [hrec] at hfin
                      simp only at hfin
                      have hfh : tr5.hops = tr.hops + 1 := by
                        rw [hfin.1, hh4]
                      cases rr with
                      | error e =>
                          simp only [hfh, hkftr]
                          exact ⟨by simp, fun _ => hfin.2⟩
                      | ok v =>
                          simp only [hfh, hkftr]
                          exact ⟨by simp, fun _ => hfin.2⟩
                · rw [if_neg hguard]
                  simp only [mok, hh3]
                  exact ⟨Nat.le_add_right _ _, by simp⟩
      · have hne := getF_ne0 site (n + 1) tr hex
        rw [hne.1]
        exact ⟨Nat.le_add_right _ _, by simp⟩

/-- Hop bound for `_load`: at most one automatic redirect hop, only when
following is enabled, and a hop disables following. -/
theorem loadF_hops (site : Site) (fuel : Nat) (tr : Tr) :
    (loadF site fuel tr).2.hops ≤ tr.hops + (if tr.page.keep_following then 1 else 0) ∧
    (tr.hops < (loadF site fuel tr).2.hops →
      (loadF site fuel tr).2.page.keep_following = false) := by
  unfold loadF
  rcases hl : load_attributes site none tr with ⟨r, tr1⟩
  have hok := load_attributes_fst site none tr
  rw [hl] at hok
  simp only at hok
  cases r with
  | error e => simp at hok
  | ok a =>
  have hk := load_attributes_hk site none tr
  rw [hl] at hk
  simp only at hk
  have hcs := load_attributes_exists_ne0 site none tr
  rw [hl] at hcs
  simp only at hcs
  simp only [mbind_eq_ok hl,
    mbind_eq_ok (show mgetTr tr1 = (Except.ok tr1, tr1) from rfl)]
  by_cases hguard :
      (tr1.page.keep_following && tr1.page.is_redirect == some true) = true
  · rw [if_pos hguard]
    have hkf1 : tr1.page.keep_following = true :=
      (Bool.and_eq_true _ _ |>.mp hguard).1
    have hkftr : tr.page.keep_following = true := by rw [← hk.2, hkf1]
    rcases hg : get_redirect_targetF site fuel tr1 with ⟨rg, tr2⟩
    have hk2 := grtF_ne0 site fuel tr1 hcs
    rw [hg] at hk2
    simp only at hk2
    have hh2 : tr2.hops = tr.hops := by rw [hk2.1, hk.1]
    cases rg with
    | error e =>
        simp only [mbind_eq_err hg, hh2]
        exact ⟨Nat.le_add_right _ _, by simp⟩
    | ok target =>
        simp only [mbind_eq_ok hg]
        simp only [mbind, setPage, addHop]
        rcases hla : load_attributes site none
            ⟨{ tr2.page with
                title := target,
                keep_following := false,
                content := none }, tr2.log, tr2.hops + 1⟩ with ⟨rl, tr3⟩
        have hk3 := load_attributes_hk site none
          ⟨{ tr2.page with
              title := target,
              keep_following := false,
              content := none }, tr2.log, tr2.hops + 1⟩
        rw [hla] at hk3
        simp only at hk3
        have hfh : tr3.hops = tr.hops + 1 := by rw [hk3.1]; simp [hh2]
        have hfk : tr3.page.keep_following = false := by rw [hk3.2]
        cases rl with
        | error e => simp only [hfh, hkftr]; exact ⟨by simp, fun _ => hfk⟩
        | ok v => simp only [hfh, hkftr]; exact ⟨by simp, fun _ => hfk⟩
  · rw [if_neg hguard]
    simp only [mok, hk.1]
    exact ⟨Nat.le_add_right _ _, by simp⟩

/-- C7: redirect resolution follows at most one hop per instance: a `get()`
or `_load()` on any page, against any remote data (circular chains
included), takes at most one automatic hop — none at all when following is
disabled — and whenever a hop was taken, following is disabled in the
resulting state, so a second redirect target is never followed. -/
theorem redirect_one_hop (site : Site) (p : PageSt) :
    (runGet site p).2.hops ≤ (if p.keep_following then 1 else 0) ∧
    (runLoad site p).2.hops ≤ (if p.keep_following then 1 else 0) ∧
    (0 < (runGet site p).2.hops → (runGet site p).2.page.keep_following = false) ∧
    (0 < (runLoad site p).2.hops → (runLoad site p).2.page.keep_following = false) := by
  have hg := getF_hops site FUEL (start p)
  have hl := loadF_hops site FUEL (start p)
  simp only [start, Nat.zero_add] at hg hl
  exact ⟨hg.1, hl.1, hg.2, hl.2⟩

/-- C7 witness: against a circular redirect chain (every page reports being
a redirect to itself), a followed `get` terminates with exactly one hop and
following disabled. -/
theorem redirect_one_hop_witness :
    (runGet siteCirc p0F).2.hops ≤ 1 ∧
    (runLoad siteCirc p0F).2.hops ≤ 1 ∧
    (runGet siteCirc p0F).2.page.keep_following = false ∧
    (runLoad siteCirc p0F).2.page.keep_following = false :=
  ⟨(redirect_one_hop siteCirc p0F).1,
   (redirect_one_hop siteCirc p0F).2.1,
   (redirect_one_hop siteCirc p0F).2.2.1 (by decide),
   (redirect_one_hop siteCirc p0F).2.2.2 (by decide)⟩

/-! Counting bounds for the edit protocol (C1). -/

theorem cbound_of_log_eq {q : RCall → Bool} {α : Type} {x : M α}
    (h : ∀ tr, (x tr).2.log = tr.log) (n : Nat) : CBound q x n := by
  intro tr
  rw [h tr]
  omega

theorem cbound_mono {q : RCall → Bool} {α : Type} {x : M α} {n m : Nat}
    (h : CBound q x n) (hnm : n ≤ m) : CBound q x m := by
  intro tr
  have := h tr
  omega

theorem cbound_mok {q : RCall → Bool} {α : Type} (a : α) (n : Nat) :
    CBound q (mok a) n := cbound_of_log_eq (fun _ => rfl) n

theorem cbound_mthrow {q : RCall → Bool} {α : Type} (e : Err) (n : Nat) :
    CBound q (mthrow (α := α) e) n := cbound_of_log_eq (fun _ => rfl) n

theorem cbound_mgetTr {q : RCall → Bool} (n : Nat) : CBound q mgetTr n :=
  cbound_of_log_eq (fun _ => rfl) n

theorem cbound_setPage {q : RCall → Bool} (f : PageSt → PageSt) (n : Nat) :
    CBound q (setPage f) n := cbound_of_log_eq (fun _ => rfl) n

theorem cbound_mbind {q : RCall → Bool} {α β : Type} {x : M α} {f : α → M β}
    {n m : Nat} (hx : CBound q x n) (hf : ∀ a, CBound q (f a) m) :
    CBound q (mbind x f) (n + m) := by
  intro tr
  unfold mbind
  rcases h : x tr with ⟨r, tr1⟩
  have hx1 := hx tr
  rw [h] at hx1
  simp only at hx1
  cases r with
  | ok a =>
      have hf1 := hf a tr1
      simp only
      omega
  | error e =>
      simp only
      omega

theorem cbound_load_attributes {q : RCall → Bool} (site : Site)
    (g : Option ApiResult) (hqM : q RCall.metaQ = false) (n : Nat) :
    CBound q (load_attributes site g) n := by
  intro tr
  cases g <;>
    simp [load_attributes, addCall, List.countP_append, List.countP_cons,
      List.countP_nil, hqM]

theorem cbound_assert_validity {q : RCall → Bool} (n : Nat) :
    CBound q assert_validity n :=
  cbound_of_log_eq (fun tr => congrArg Tr.log (assert_validity_state tr)) n

theorem cbound_assert_existence {q : RCall → Bool} (n : Nat) :
    CBound q assert_existence n :=
  cbound_of_log_eq (fun tr => congrArg Tr.log (assert_existence_state tr)) n

theorem cbound_submitEdit {q : RCall → Bool} (site : Site) (ps : EditParams) :
    CBound q (submitEdit site ps)
      (if q (RCall.editQ ps) then 1 else 0) := by
  intro tr
  simp only [submitEdit, addCall, List.countP_append, List.countP_cons,
    List.countP_nil]
  split <;> omega

theorem cbound_doLogin {q : RCall → Bool} :
    CBound q doLogin (if q RCall.loginC then 1 else 0) := by
  intro tr
  simp only [doLogin, addCall, List.countP_append, List.countP_cons,
    List.countP_nil]
  split <;> omega

/-- When `_handle_edit_errors` or `_handle_assert_edit` returns normally
(only possible via the login-retry path), the returned value is Python
`None`. -/
theorem handlers_ok_none (site : Site) (fuel : Nat) :
    (∀ code info ps tries tr v tr2,
      handle_edit_errorsF site fuel code info ps tries tr = (Except.ok v, tr2) →
      v = none) ∧
    (∀ assertion ps tries tr v tr2,
      handle_assert_editF site fuel assertion ps tries tr = (Except.ok v, tr2) →
      v = none) := by
  cases fuel with
  | zero =>
      constructor
      · intro _ _ _ _ _ _ _ h
        simp [handle_edit_errorsF, mthrow] at h
      · intro _ _ _ _ _ _ h
        simp [handle_assert_editF, mthrow] at h
  | succ n =>
      have hretry : ∀ (ps : EditParams) (tr tr2 : Tr) (v : Option (String × Option String)),
          (mbind doLogin fun _ =>
           mbind (setPage fun p => { p with token := none }) fun _ =>
           mbind (editF site n (some ps) none none false false false none none none 1)
             fun _ => mok (none : Option (String × Option String))) tr =
            (Except.ok v, tr2) → v = none := by
        intro ps tr tr2 v h
        simp only [mbind, doLogin, setPage] at h
        split at h
        · simp only [mok, Prod.mk.injEq, Except.ok.injEq] at h
          simp_all
        · simp at h
      constructor
      · intro code info ps tries tr v tr2 h
        simp only [handle_edit_errorsF] at h
        by_cases hA : code ∈ (["noedit", "cantcreate", "protectedtitle",
            "noimageredirect"] : List String)
        · rw [if_pos hA] at h
          simp [mthrow] at h
        rw [if_neg hA] at h
        by_cases hB : code ∈ (["noedit-anon", "cantcreate-anon",
            "noimageredirect-anon"] : List String)
        · rw [if_pos hB] at h
          by_cases hC : site.loginInfoAll = false
          · rw [if_pos hC] at h
            simp [mthrow] at h
          rw [if_neg hC] at h
          by_cases hD : tries = 0
          · rw [if_pos hD] at h
            exact hretry ps tr tr2 v h
          · rw [if_neg hD] at h
            simp [mthrow] at h
        rw [if_neg hB] at h
        by_cases hE : code ∈ (["editconflict", "pagedeleted",
            "articleexists"] : List String)
        · rw [if_pos hE] at h
          simp [mbind, setPage, mthrow] at h
        rw [if_neg hE] at h
        by_cases hF : code ∈ (["emptypage", "emptynewsection"] : List String)
        · rw [if_pos hF] at h
          simp [mthrow] at h
        rw [if_neg hF] at h
        by_cases hG : code = "contenttoobig"
        · rw [if_pos hG] at h
          simp [mthrow] at h
        rw [if_neg hG] at h
        by_cases hH : code = "spamdetected"
        · rw [if_pos hH] at h
          simp [mthrow] at h
        rw [if_neg hH] at h
        by_cases hI : code = "filtered"
        · rw [if_pos hI] at h
          simp [mthrow] at h
        rw [if_neg hI] at h
        simp [mthrow] at h
      · intro assertion ps tries tr v tr2 h
        simp only [handle_assert_editF] at h
        by_cases hA : assertion = "user"
        · rw [if_pos hA] at h
          by_cases hC : site.loginInfoAll = false
          · rw [if_pos hC] at h
            simp [mthrow] at h
          rw [if_neg hC] at h
          by_cases hD : tries = 0
          · rw [if_pos hD] at h
            exact hretry ps tr tr2 v h
          · rw [if_neg hD] at h
            simp [mthrow] at h
        rw [if_neg hA] at h
        by_cases hB : assertion = "bot"
        · rw [if_pos hB] at h
          simp [mthrow] at h
        rw [if_neg hB] at h
        simp [mthrow] at h

/-- Remote-call counting for the whole edit protocol, parametric in the kind
of call counted: with `eW` bounding the weight of one edit submission and
`lW` the weight of one login, an `_edit` call makes at most one submission
plus, on a first attempt, whatever one handler retry adds (one login and one
further submission); the handlers add at most one login and one submission,
and only on a first attempt. -/
theorem edit_counts (site : Site) (q : RCall → Bool)
    (hqM : q RCall.metaQ = false) (eW lW : Nat)
    (hE : ∀ ps, (if q (RCall.editQ ps) then 1 else 0) ≤ eW)
    (hL : (if q RCall.loginC then 1 else 0) ≤ lW) :
    ∀ fuel : Nat,
      (∀ pmO t s m b fo sc c1 c2 tries,
        CBound q (editF site fuel pmO t s m b fo sc c1 c2 tries)
          (eW + (if tries = 0 then eW + lW else 0))) ∧
      (∀ code info ps tries,
        CBound q (handle_edit_errorsF site fuel code info ps tries)
          (if tries = 0 then eW + lW else 0)) ∧
      (∀ assertion ps tries,
        CBound q (handle_assert_editF site fuel assertion ps tries)
          (if tries = 0 then eW + lW else 0)) := by
  intro fuel
  induction fuel with
  | zero =>
      refine ⟨fun _ _ _ _ _ _ _ _ _ _ tr => ?_, fun _ _ _ _ tr => ?_,
              fun _ _ _ tr => ?_⟩ <;>
        · simp only [editF, handle_edit_errorsF, handle_assert_editF, mthrow]
          omega
  | succ n ih =>
      obtain ⟨ihE, ihH, ihA⟩ := ih
      have hRetryB : ∀ ps : EditParams,
          CBound q (mbind doLogin fun _ =>
            mbind (setPage fun p => { p with token := none }) fun _ =>
            mbind (editF site n (some ps) none none false false false none none none 1)
              fun _ => mok (none : Option (String × Option String)))
            (eW + lW) := by
        intro ps
        refine cbound_mono
          (n := (if q RCall.loginC = true then 1 else 0) +
            (0 + ((eW + if (1 : Nat) = 0 then eW + lW else 0) + 0))) ?_ ?_
        · exact cbound_mbind cbound_doLogin fun _ =>
            cbound_mbind (cbound_setPage _ 0) fun _ =>
            cbound_mbind (ihE (some ps) none none false false false none none none 1)
              fun _ => cbound_mok _ 0
        · have := hL
          simp only [Nat.one_ne_zero, if_neg, if_false]
          omega
      have hH : ∀ code info ps tries,
          CBound q (handle_edit_errorsF site (n + 1) code info ps tries)
            (if tries = 0 then eW + lW else 0) := by
        intro code info ps tries
        simp only [handle_edit_errorsF]
        by_cases hA : code ∈ (["noedit", "cantcreate", "protectedtitle",
            "noimageredirect"] : List String)
        · rw [if_pos hA]; exact cbound_mthrow _ _
        rw [if_neg hA]
        by_cases hB : code ∈ (["noedit-anon", "cantcreate-anon",
            "noimageredirect-anon"] : List String)
        · rw [if_pos hB]
          by_cases hC : site.loginInfoAll = false
          · rw [if_pos hC]; exact cbound_mthrow _ _
          rw [if_neg hC]
          by_cases hD : tries = 0
          · subst hD
            rw [if_pos rfl, if_pos rfl]
            exact hRetryB ps
          · rw [if_neg hD]; exact cbound_mthrow _ _
        rw [if_neg hB]
        by_cases hEc : code ∈ (["editconflict", "pagedeleted",
            "articleexists"] : List String)
        · rw [if_pos hEc]
          exact cbound_mono
            (cbound_mbind (cbound_setPage _ 0) fun _ => cbound_mthrow _ 0)
            (by omega)
        rw [if_neg hEc]
        by_cases hF : code ∈ (["emptypage", "emptynewsection"] : List String)
        · rw [if_pos hF]; exact cbound_mthrow _ _
        rw [if_neg hF]
        by_cases hG : code = "contenttoobig"
        · rw [if_pos hG]; exact cbound_mthrow _ _
        rw [if_neg hG]
        by_cases hHc : code = "spamdetected"
        · rw [if_pos hHc]; exact cbound_mthrow _ _
        rw [if_neg hHc]
        by_cases hI : code = "filtered"
        · rw [if_pos hI]; exact cbound_mthrow _ _
        rw [if_neg hI]
        exact cbound_mthrow _ _
      have hA2 : ∀ assertion ps tries,
          CBound q (handle_assert_editF site (n + 1) assertion ps tries)
            (if tries = 0 then eW + lW else 0) := by
        intro assertion ps tries
        simp only [handle_assert_editF]
        by_cases hA : assertion = "user"
        · rw [if_pos hA]
          by_cases hC : site.loginInfoAll = false
          · rw [if_pos hC]; exact cbound_mthrow _ _
          rw [if_neg hC]
          by_cases hD : tries = 0
          · subst hD
            rw [if_pos rfl, if_pos rfl]
            exact hRetryB ps
          · rw [if_neg hD]; exact cbound_mthrow _ _
        rw [if_neg hA]
        by_cases hB : assertion = "bot"
        · rw [if_pos hB]; exact cbound_mthrow _ _
        rw [if_neg hB]
        exact cbound_mthrow _ _
      refine ⟨?_, hH, hA2⟩
      intro pmO t s m b fo sc c1 c2 tries
      have hDT : ∀ (P : EditParams) (resp : EditResp),
          CBound q (mbind
            (match resp with
             | EditResp.result r a => mok (some (r, a))
             | EditResp.apiError none info => mthrow (Err.siteAPI info)
             | EditResp.apiError (some code) info =>
                 handle_edit_errorsF site n code info P tries)
            (fun result =>
              match result with
              | none => mthrow (Err.pyTypeError "NoneType object is not subscriptable")
              | some ra =>
                  if ra.1 = "Success" then
                    setPage fun p =>
                      { p with content := none, basetimestamp := none, exists_ := 0 }
                  else
                    match ra.2 with
                    | none => mthrow (Err.editErr ra.1)
                    | some assertion =>
                        mbind (handle_assert_editF site n assertion P tries)
                          fun _ => mok ()))
            (if tries = 0 then eW + lW else 0) := by
        intro P resp tr
        cases resp with
        | result r a =>
            simp only [mbind, mok]
            by_cases hs : r = "Success"
            · rw [if_pos hs]
              simp only [setPage]
              omega
            · rw [if_neg hs]
              cases a with
              | none => simp only [mthrow]; omega
              | some assertion =>
                  simp only
                  rcases hh : handle_assert_editF site n assertion P tries tr
                      with ⟨rh, trh⟩
                  have hb := ihA assertion P tries tr
                  rw [hh] at hb
                  simp only at hb
                  simp only [mbind, hh]
                  cases rh with
                  | ok v => simpa [mok] using hb
                  | error e => exact hb
        | apiError code info =>
            cases code with
            | none => simp only [mbind, mthrow]; omega
            | some c =>
                simp only
                rcases hh : handle_edit_errorsF site n c info P tries tr
                    with ⟨rh, trh⟩
                have hb := ihH c info P tries tr
                rw [hh] at hb
                simp only at hb
                simp only [mbind, hh]
                cases rh with
                | ok v =>
                    have hv := (handlers_ok_none site n).1 c info P tries tr v trh hh
                    subst hv
                    simpa [mthrow] using hb
                | error e => exact hb
      simp only [editF]
      refine cbound_mono
        (n := 0 + (0 + (0 + (0 + (0 + (0 +
          (eW + (if tries = 0 then eW + lW else 0)))))))) ?_ ?_
      · exact cbound_mbind (cbound_mgetTr 0) fun tr0 =>
          cbound_mbind
            (by
              by_cases hc : truthy tr0.page.token = true
              · rw [if_pos hc]; exact cbound_mok _ 0
              · rw [if_neg hc]; exact cbound_load_attributes site none hqM 0)
            fun _ =>
          cbound_mbind (cbound_mgetTr 0) fun tr1 =>
          cbound_mbind
            (by
              by_cases hc : truthy tr1.page.token = true
              · rw [if_pos hc]; exact cbound_mok _ 0
              · rw [if_neg hc]; exact cbound_mthrow _ 0)
            fun _ =>
          cbound_mbind (cbound_assert_validity 0) fun _ =>
          cbound_mbind (cbound_mgetTr 0) fun tr2 =>
          cbound_mbind
            (cbound_mono (cbound_submitEdit site _)
              (hE (match pmO with
                   | none => build_edit_params tr2.page t s m b fo sc c1 c2
                   | some ps => { ps with token := tr2.page.token })))
            fun resp => hDT _ resp
      · omega

/-- The two response shapes that trigger the login-and-retry path. -/
theorem retriable_cases {r : EditResp} (h : retriableReject r = true) :
    (∃ i, r = EditResp.apiError (some "noedit-anon") i ∨
          r = EditResp.apiError (some "cantcreate-anon") i ∨
          r = EditResp.apiError (some "noimageredirect-anon") i) ∨
    (∃ rs, rs ≠ "Success" ∧ r = EditResp.result rs (some "user")) := by
  cases r with
  | apiError code info =>
      cases code with
      | none => simp [retriableReject] at h
      | some c =>
          left
          refine ⟨info, ?_⟩
          simp only [retriableReject, Bool.or_eq_true, beq_iff_eq] at h
          rcases h with (h | h) | h <;> subst h <;> simp
  | result rs a =>
      right
      simp only [retriableReject, Bool.and_eq_true, bne_iff_ne, beq_iff_eq] at h
      exact ⟨rs, h.1, by rw [h.2]⟩

/-- After a fetch that does not classify the page invalid and whose result
carries a truthy edit token, the cached token is truthy. -/
theorem applyAttributes_token_valid (p : PageSt) (res : ApiResult) (now : String)
    (hval : ¬(res.pageid < 0 ∧ res.missing = false))
    (hq : truthy res.edittoken = true) :
    truthy (applyAttributes p res now).token = true := by
  rcases hek : res.edittoken with _ | tk
  · rw [hek] at hq
    simp [truthy] at hq
  · have htk : ∀ p' : PageSt, (applyRest p' res now).token = some tk := by
      intro p'
      rw [applyRest_token, hek]
    unfold applyAttributes
    by_cases hp : res.pageid < 0 <;> cases hm : res.missing
    · exact absurd ⟨hp, hm⟩ hval
    · simp only [hp, hm, if_pos, if_true, htk]
      rw [← hek]; exact hq
    · simp only [hp, if_neg, if_false, htk, not_false_eq_true]
      rw [← hek]; exact hq
    · simp only [hp, if_neg, if_false, htk, not_false_eq_true]
      rw [← hek]; exact hq

theorem applyAttributes_exists_ne1 (p : PageSt) (res : ApiResult) (now : String)
    (hval : ¬(res.pageid < 0 ∧ res.missing = false)) :
    (applyAttributes p res now).exists_ ≠ 1 := by
  rw [applyAttributes_exists_]
  by_cases hp : res.pageid < 0
  · cases hm : res.missing
    · exact absurd ⟨hp, hm⟩ hval
    · simp [hp, hm]
  · simp [hp]

theorem editCount_append_metaQ (l : List RCall) :
    editCount (l ++ [RCall.metaQ]) = editCount l := by
  simp [editCount, List.countP_append, List.countP_cons, List.countP_nil,
    RCall.isEdit]

/-- The retried `_edit` (attempt counter 1) with a broken session: the token
is absent (it was just invalidated), the metadata re-fetch yields a fresh
token and a valid page, but the resubmission is rejected again in a
retriable way — the retry performs exactly one metadata fetch and one
resubmission and then raises `LoginError` instead of logging in again. -/
theorem inner_retry_fails (site : Site) (fuel : Nat) (params : EditParams) (tr : Tr)
    (htok : truthy tr.page.token = false)
    (hq : truthy (site.query (queryIdx tr.log)).edittoken = true)
    (hval : ¬((site.query (queryIdx tr.log)).pageid < 0 ∧
      (site.query (queryIdx tr.log)).missing = false))
    (hr1 : retriableReject (site.editQuery (editCount tr.log)) = true)
    (hlogin : site.loginInfoAll = true) :
    (editF site (fuel + 2) (some params) none none false false false
        none none none 1 tr).1 =
      Except.error (Err.login "Although we should be logged in, we are not.") ∧
    (editF site (fuel + 2) (some params) none none false false false
        none none none 1 tr).2.log =
      tr.log ++ [RCall.metaQ, RCall.editQ { params with token :=
        (applyAttributes tr.page (site.query (queryIdx tr.log)) site.nowStr).token }] := by
  have htk1 := applyAttributes_token_valid tr.page (site.query (queryIdx tr.log))
    site.nowStr hval hq
  have hex1 := applyAttributes_exists_ne1 tr.page (site.query (queryIdx tr.log))
    site.nowStr hval
  constructor <;>
  · rcases retriable_cases hr1 with ⟨i, hcase⟩ | ⟨rs, hne, hcase⟩
    · rcases hcase with hcase | hcase | hcase <;>
        simp [editF, mbind, mgetTr, mok, mthrow, htok, load_attributes, addCall,
          htk1, assert_validity, hex1, submitEdit, editCount_append_metaQ, hcase,
          handle_edit_errorsF, hlogin]
    · simp [editF, mbind, mgetTr, mok, mthrow, htok, load_attributes, addCall,
        htk1, assert_validity, hex1, submitEdit, editCount_append_metaQ, hcase,
        handle_assert_editF, hlogin, hne]

/-- C1: every `edit()` call submits at most twice and logs in at most once,
for any remote behaviour; and in the failing-session scenario — the first
submission rejected with an anonymous-permission code or a failed `user`
assertion, credentials configured, the re-fetch after login yielding a
token — the protocol performs exactly one login, exactly one resubmission,
and raises `LoginError` when the resubmission is rejected the same way. -/
theorem edit_retry_bounded (site : Site) (p : PageSt) (text summary : String)
    (minor bot force : Bool) :
    editCount (runEdit site p text summary minor bot force).2.log ≤ 2 ∧
    loginCount (runEdit site p text summary minor bot force).2.log ≤ 1 ∧
    (site.loginInfoAll = true →
     retriableReject (site.editQuery 0) = true →
     retriableReject (site.editQuery 1) = true →
     truthy p.token = true → p.exists_ ≠ 1 →
     truthy (site.query 0).edittoken = true →
     ¬((site.query 0).pageid < 0 ∧ (site.query 0).missing = false) →
     ((runEdit site p text summary minor bot force).1 =
        Except.error (Err.login "Although we should be logged in, we are not.") ∧
      editCount (runEdit site p text summary minor bot force).2.log = 2 ∧
      loginCount (runEdit site p text summary minor bot force).2.log = 1)) := by
  refine ⟨?_, ?_, ?_⟩
  · have hb := (edit_counts site RCall.isEdit rfl 1 0
        (fun ps => by simp [RCall.isEdit]) (by simp [RCall.isEdit]) FUEL).1
      none (some text) (some summary) minor bot force none none none 0 (start p)
    simp only [start, List.countP_nil] at hb
    unfold runEdit
    simpa [editCount] using hb
  · have hb := (edit_counts site RCall.isLogin rfl 0 1
        (fun ps => by simp [RCall.isLogin]) (by simp [RCall.isLogin]) FUEL).1
      none (some text) (some summary) minor bot force none none none 0 (start p)
    simp only [start, List.countP_nil] at hb
    unfold runEdit
    simpa [loginCount] using hb
  · intro hlog hr0 hr1 htok hex hq hval
    have hin := inner_retry_fails site 2
      (build_edit_params p (some text) (some summary) minor bot force none none none)
      ⟨{ p with token := none },
       [RCall.editQ (build_edit_params p (some text) (some summary) minor bot force
          none none none), RCall.loginC], 0⟩
      (by simp [truthy])
      (by simpa [queryIdx, RCall.isQuery] using hq)
      (by simpa [queryIdx, RCall.isQuery] using hval)
      (by simpa [editCount, RCall.isEdit] using hr1)
      hlog
    rw [show (2 : Nat) + 2 = 4 from rfl] at hin
    rcases hXfull : editF site 4
        (some (build_edit_params p (some text) (some summary) minor bot force
          none none none)) none none false false false none none none 1
        ⟨{ p with token := none },
         [RCall.editQ (build_edit_params p (some text) (some summary) minor bot force
            none none none), RCall.loginC], 0⟩ with ⟨rX, trX⟩
    rw [hXfull] at hin
    simp only at hin
    obtain ⟨hX1, hXlog⟩ := hin
    subst hX1
    have houter : runEdit site p text summary minor bot force =
        (Except.error (Err.login "Although we should be logged in, we are not."),
         trX) := by
      unfold runEdit FUEL editF
      rcases retriable_cases hr0 with ⟨i, hcase | hcase | hcase⟩ | ⟨rs, hne, hcase⟩
      · simp [mbind, mgetTr, mok, mthrow, start, htok, assert_validity, hex,
          submitEdit, addCall, editCount, hcase, handle_edit_errorsF, hlog,
          doLogin, setPage, hXfull]
      · simp [mbind, mgetTr, mok, mthrow, start, htok, assert_validity, hex,
          submitEdit, addCall, editCount, hcase, handle_edit_errorsF, hlog,
          doLogin, setPage, hXfull]
      · simp [mbind, mgetTr, mok, mthrow, start, htok, assert_validity, hex,
          submitEdit, addCall, editCount, hcase, handle_edit_errorsF, hlog,
          doLogin, setPage, hXfull]
      · simp [mbind, mgetTr, mok, mthrow, start, htok, assert_validity, hex,
          submitEdit, addCall, editCount, hcase, handle_assert_editF, hlog,
          doLogin, setPage, hXfull, hne]
    rw [houter]
    refine ⟨rfl, ?_, ?_⟩ <;>
      simp [hXlog, editCount, loginCount, RCall.isEdit, RCall.isLogin,
        List.countP_append, List.countP_cons, List.countP_nil]

/-- C1 witness: the persistent anonymous-rejection scenario at concrete
inputs. -/
theorem edit_retry_bounded_witness :
    editCount (runEdit siteAnon pTok "txt" "sum" false true false).2.log ≤ 2 ∧
    loginCount (runEdit siteAnon pTok "txt" "sum" false true false).2.log ≤ 1 ∧
    ((runEdit siteAnon pTok "txt" "sum" false true false).1 =
       Except.error (Err.login "Although we should be logged in, we are not.") ∧
     editCount (runEdit siteAnon pTok "txt" "sum" false true false).2.log = 2 ∧
     loginCount (runEdit siteAnon pTok "txt" "sum" false true false).2.log = 1) :=
  ⟨(edit_retry_bounded siteAnon pTok "txt" "sum" false true false).1,
   (edit_retry_bounded siteAnon pTok "txt" "sum" false true false).2.1,
   (edit_retry_bounded siteAnon pTok "txt" "sum" false true false).2.2
     (by decide) (by decide) (by decide) (by decide) (by decide) (by decide)
     (by decide)⟩

end Earwig
